import Mathlib

set_option maxHeartbeats 1000000

/-
Shallow embedding of the ldap-admin-backend view engine (src/model/view_field.py,
src/model/view.py, src/model/anti_spam.py, src/model/auth.py).

Python dictionaries are modelled as insertion-ordered association lists with
unique-key update semantics; Python exceptions are modelled with Except; the
values flowing through JSON assignments, LDAP fetch records and result
documents are modelled by the PyVal type below.
-/

/-- Values as they appear in JSON assignments, LDAP fetch records and result
documents: Python str, bool and datetime objects. A datetime object is
represented by the ISO string it was parsed from; the embedding treats
dateutil.parser.isoparse as injective on format-validated strings. Equality
between values of different constructors is false, as in Python. -/
inductive PyVal where
  | s : String → PyVal
  | b : Bool → PyVal
  | dt : String → PyVal
deriving DecidableEq, Repr

/-- Python truthiness of the values above: the empty string and False are
falsy, every datetime object is truthy. -/
def truthy : PyVal → Bool
  | PyVal.s v => v ≠ ""
  | PyVal.b v => v
  | PyVal.dt _ => true

/-- Python dict lookup, `d.get(k)`: the first binding for the key wins. -/
def dget {α : Type} : List (String × α) → String → Option α
  | [], _ => none
  | (k', v) :: rest, k => if k' = k then some v else dget rest k

/-- Python dict item assignment, `d[k] = v`: replaces the first binding for the
key in place, appends a new binding otherwise (insertion order preserved). -/
def dset {α : Type} : List (String × α) → String → α → List (String × α)
  | [], k, v => [(k, v)]
  | (k', v') :: rest, k, v =>
    if k' = k then (k, v) :: rest else (k', v') :: dset rest k v

/-- Python `d.get(k, dflt)`. -/
def dgetD {α : Type} (d : List (String × α)) (k : String) (dflt : α) : α :=
  (dget d k).getD dflt

/-- Python `k in d`. -/
def dcontains {α : Type} (d : List (String × α)) (k : String) : Bool :=
  (dget d k).isSome

/-- Python `list.remove(x)`: drops the first occurrence of `x`; `none` models
the ValueError raised when `x` is absent. -/
def listRemove : List PyVal → PyVal → Option (List PyVal)
  | [], _ => none
  | y :: rest, x =>
    if y = x then some rest else (listRemove rest x).map (fun r => y :: r)

/-- Python `set.add` on the attribute fetch set, modelled as a list without
duplicates. -/
def setAdd (s : List String) (x : String) : List String :=
  if x ∈ s then s else s ++ [x]

/-- The error kinds the modelled code can raise: falcon.HTTPBadRequest,
falcon.HTTPForbidden, falcon.HTTPNotFound, and the unhandled Python KeyError,
TypeError and ValueError. -/
inductive Err where
  | badRequest | forbidden | notFound | keyError | typeError | valueError
deriving DecidableEq, Repr

/-- model/db.py LdapMods. -/
inductive LdapMod where
  | add | delete | replace | increment
deriving DecidableEq, Repr

/-- Per-field assignments dict (JSON object for one fields group). -/
abbrev Assignments := List (String × PyVal)

/-- model/db.py LdapModlist: attribute name to ordered list of (op, values). -/
abbrev Modlist := List (String × List (LdapMod × List PyVal))

/-- model/db.py LdapAddlist: attribute name to list of values. -/
abbrev Addlist := List (String × List PyVal)

/-- model/db.py LdapFetch: the request-local fetch record, a DN together with
the fetched attribute multimap. -/
structure LdapFetch where
  dn : String
  values : List (String × List PyVal)
deriving DecidableEq, Repr

/-- src/model/view_field.py ViewField._is_enabled: a field is enabled when its
own key is the pseudo-key or the sibling value `_enabled` is truthy
(missing defaults to enabled). -/
def isEnabled (key : String) (values : List (String × PyVal)) : Bool :=
  key = "_enabled" ||
    (match dget values "_enabled" with
     | some v => truthy v
     | none => true)

/- ------------------------------------------------------------------ -/
/- Field configurations (src/model/view_field.py constructors).         -/
/- ------------------------------------------------------------------ -/

/-- Configuration of ViewFieldText. `fmtMatch` is the compiled `format`
regex's fullmatch. -/
structure TextCfg where
  key : String
  field : String
  required : Bool
  creatable : Bool
  readable : Bool
  writable : Bool
  fmtMatch : String → Bool
  enumValues : Option (List String)

/-- Configuration of ViewFieldDateTime. `isoMatch` is the class-level ISO-8601
regex's fullmatch. -/
structure DateTimeCfg where
  key : String
  field : String
  required : Bool
  creatable : Bool
  readable : Bool
  writable : Bool
  isoMatch : String → Bool

/-- Configuration of ViewFieldPassword. `hashing` models the configured
passlib ldap hash for the current call (the per-call salt is fixed by the
modelling), `pwnedOracle` the pwnedpasswords.check lookup, and `genword` the
passlib.pwd.genword secret the current call would generate. -/
structure PasswordCfg where
  key : String
  field : String
  required : Bool
  creatable : Bool
  readable : Bool
  writable : Bool
  autoGenerate : Bool
  hashing : String → String
  pwnedPasswordCheck : Bool
  pwnedOracle : String → Bool
  genword : String

/-- Configuration of ViewFieldIsMemberOf. `memberOfDn` is the foreign DN
resolved in `init` via foreign_view.get_dn(memberOfName). -/
structure IsMemberOfCfg where
  key : String
  field : String
  required : Bool
  creatable : Bool
  readable : Bool
  writable : Bool
  memberOfName : String
  memberOfDn : String
  foreignField : String
deriving DecidableEq, Repr

/-- Configuration of ViewFieldObjectClass. -/
structure ObjectClassCfg where
  key : String
  field : String
  required : Bool
  creatable : Bool
  readable : Bool
  writable : Bool
  objectClass : String
deriving DecidableEq, Repr

/-- Configuration of ViewFieldInitial (its `creatable` is asserted true by the
constructor; the nested target is carried by the ViewField constructor). -/
structure InitialCfg where
  key : String
  value : PyVal
deriving DecidableEq, Repr

/-- The closed set of field kinds of src/model/view_field.py that the claims
touch (`generate` is not needed by any claim and is omitted). An `initial`
field wraps a nested target field. -/
inductive ViewField where
  | text : TextCfg → ViewField
  | datetime : DateTimeCfg → ViewField
  | password : PasswordCfg → ViewField
  | isMemberOf : IsMemberOfCfg → ViewField
  | objectClass : ObjectClassCfg → ViewField
  | initial : InitialCfg → ViewField → ViewField

/-- The `key` attribute of a field. -/
def ViewField.key : ViewField → String
  | ViewField.text c => c.key
  | ViewField.datetime c => c.key
  | ViewField.password c => c.key
  | ViewField.isMemberOf c => c.key
  | ViewField.objectClass c => c.key
  | ViewField.initial c _ => c.key

/-- A follow-up write on a foreign entry issued through
View.save_foreign_field (whose modlist here is always non-empty, so the
modify is always issued). -/
structure ForeignWrite where
  foreignPk : String
  attr : String
  op : LdapMod
  vals : List PyVal
deriving DecidableEq, Repr

/- ------------------------------------------------------------------ -/
/- ViewFieldText (src/model/view_field.py lines 131-231).              -/
/- ------------------------------------------------------------------ -/

/-- Lines 181-189 and 213-221: format and enum validation of a truthy value.
Passing a non-string truthy value to regex fullmatch raises TypeError. -/
def ViewFieldText.validate (c : TextCfg) (value : PyVal) : Except Err Unit :=
  if truthy value = false then Except.ok ()
  else match value with
    | PyVal.s v =>
      if c.fmtMatch v = false then Except.error Err.badRequest
      else match c.enumValues with
        | some evs => if v ∈ evs then Except.ok () else Except.error Err.badRequest
        | none => Except.ok ()
    | _ => Except.error Err.typeError

/-- ViewFieldText.set (lines 174-202). Returns the updated fetch record,
modlist and assignments, or the raised error. Line 202 always rolls the fetch
record forward to the assigned value. -/
def ViewFieldText.set (c : TextCfg) (fetches : LdapFetch) (modlist : Modlist)
    (a : Assignments) : Except Err (LdapFetch × Modlist × Assignments) :=
  match dget a c.key with
  | none => Except.ok (fetches, modlist, a)
  | some value =>
    if isEnabled c.key a = false then Except.ok (fetches, modlist, a)
    else if c.writable = false then Except.error Err.badRequest
    else match ViewFieldText.validate c value with
      | Except.error e => Except.error e
      | Except.ok _ =>
        if truthy value = false then
          if c.required then Except.error Err.badRequest
          else
            let ml := match dget fetches.values c.field with
              | some _ => dset modlist c.field [(LdapMod.delete, [])]
              | none => modlist
            Except.ok
              ({ fetches with values := dset fetches.values c.field [value] }, ml, a)
        else
          let ml := match dget fetches.values c.field with
            | some fv =>
              if fv.length = 1 ∧ fv.head? = some value then modlist
              else dset modlist c.field [(LdapMod.replace, [value])]
            | none => dset modlist c.field [(LdapMod.add, [value])]
          Except.ok
            ({ fetches with values := dset fetches.values c.field [value] }, ml, a)

/-- ViewFieldText.create (lines 204-231). The duplicated enum re-check of
lines 226-229 repeats the check of `validate` and cannot change the result. -/
def ViewFieldText.create (c : TextCfg) (fetches : LdapFetch) (addlist : Addlist)
    (a : Assignments) : Except Err (LdapFetch × Addlist × Assignments) :=
  match dget a c.key with
  | none =>
    if c.required ∧ isEnabled c.key a then Except.error Err.badRequest
    else Except.ok (fetches, addlist, a)
  | some value =>
    if c.creatable = false then Except.error Err.badRequest
    else match ViewFieldText.validate c value with
      | Except.error e => Except.error e
      | Except.ok _ =>
        if dcontains fetches.values c.field then Except.error Err.badRequest
        else if truthy value = false ∧ c.required then Except.error Err.badRequest
        else Except.ok
          ({ fetches with values := dset fetches.values c.field [value] },
           dset addlist c.field [value], a)

/-- ViewFieldText.set_fetch (lines 165-172); the same code is shared by
datetime (267-274) and password (352-359) fields. -/
def simpleSetFetch (key field : String) (required writable : Bool)
    (fs : List String) (a : Assignments) : Except Err (List String) :=
  match dget a key with
  | none => Except.ok fs
  | some av =>
    if isEnabled key a = false then Except.ok fs
    else if required ∧ truthy av = false then Except.error Err.badRequest
    else if writable = false then Except.error Err.badRequest
    else Except.ok (setAdd fs field)

/-- ViewFieldText.get (lines 159-163). -/
def ViewFieldText.get (c : TextCfg) (fetches : LdapFetch)
    (results : List (String × PyVal)) : Except Err (List (String × PyVal)) :=
  if c.readable = false ∨ isEnabled c.key results = false then Except.ok results
  else match dget fetches.values c.field with
    | some (v0 :: _) => Except.ok (dset results c.key v0)
    | _ => Except.ok results

/- ------------------------------------------------------------------ -/
/- ViewFieldDateTime (lines 234-318).                                  -/
/- ------------------------------------------------------------------ -/

/-- Lines 283-286: ISO-8601 format validation of a truthy value. -/
def ViewFieldDateTime.validate (c : DateTimeCfg) (value : PyVal) : Except Err Unit :=
  if truthy value = false then Except.ok ()
  else match value with
    | PyVal.s v =>
      if c.isoMatch v = false then Except.error Err.badRequest else Except.ok ()
    | _ => Except.error Err.typeError

/-- ViewFieldDateTime.set (lines 276-298). REPLACE and ADD carry the parsed
datetime (dateutil.parser.isoparse), while line 298 rolls the fetch record
forward to the assigned ISO string itself. -/
def ViewFieldDateTime.set (c : DateTimeCfg) (fetches : LdapFetch) (modlist : Modlist)
    (a : Assignments) : Except Err (LdapFetch × Modlist × Assignments) :=
  match dget a c.key with
  | none => Except.ok (fetches, modlist, a)
  | some value =>
    if isEnabled c.key a = false then Except.ok (fetches, modlist, a)
    else if c.writable = false then Except.error Err.badRequest
    else match ViewFieldDateTime.validate c value with
      | Except.error e => Except.error e
      | Except.ok _ =>
        if truthy value = false then
          if c.required then Except.error Err.badRequest
          else
            let ml := match dget fetches.values c.field with
              | some _ => dset modlist c.field [(LdapMod.delete, [])]
              | none => modlist
            Except.ok
              ({ fetches with values := dset fetches.values c.field [value] }, ml, a)
        else match value with
          | PyVal.s v =>
            let ml := match dget fetches.values c.field with
              | some fv =>
                if fv.length = 1 ∧ fv.head? = some value then modlist
                else dset modlist c.field [(LdapMod.replace, [PyVal.dt v])]
              | none => dset modlist c.field [(LdapMod.add, [PyVal.dt v])]
            Except.ok
              ({ fetches with values := dset fetches.values c.field [value] }, ml, a)
          | _ => Except.error Err.typeError

/-- ViewFieldDateTime.create (lines 300-318). The unguarded isoparse of line
317 raises ValueError on the empty string (a falsy non-required value). -/
def ViewFieldDateTime.create (c : DateTimeCfg) (fetches : LdapFetch)
    (addlist : Addlist) (a : Assignments) :
    Except Err (LdapFetch × Addlist × Assignments) :=
  match dget a c.key with
  | none =>
    if c.required ∧ isEnabled c.key a then Except.error Err.badRequest
    else Except.ok (fetches, addlist, a)
  | some value =>
    if c.creatable = false then Except.error Err.badRequest
    else match ViewFieldDateTime.validate c value with
      | Except.error e => Except.error e
      | Except.ok _ =>
        if dcontains fetches.values c.field then Except.error Err.badRequest
        else if truthy value = false ∧ c.required then Except.error Err.badRequest
        else match value with
          | PyVal.s v =>
            if v = "" then Except.error Err.valueError
            else Except.ok
              ({ fetches with values := dset fetches.values c.field [PyVal.dt v] },
               dset addlist c.field [PyVal.dt v], a)
          | _ => Except.error Err.typeError

/-- ViewFieldDateTime.get (lines 261-265): renders the fetched datetime via
isoformat; calling isoformat on a non-datetime value raises. -/
def ViewFieldDateTime.get (c : DateTimeCfg) (fetches : LdapFetch)
    (results : List (String × PyVal)) : Except Err (List (String × PyVal)) :=
  if c.readable = false ∨ isEnabled c.key results = false then Except.ok results
  else match dget fetches.values c.field with
    | some (PyVal.dt sv :: _) => Except.ok (dset results c.key (PyVal.s sv))
    | some (_ :: _) => Except.error Err.typeError
    | _ => Except.ok results

/- ------------------------------------------------------------------ -/
/- ViewFieldPassword (lines 321-411).                                  -/
/- ------------------------------------------------------------------ -/

/-- Lines 366-369: the plaintext taken into hashing; autoGenerate with a
falsy assignment uses the generated word, otherwise the assigned value is
used and feeding a non-string to the password pipeline raises. -/
def ViewFieldPassword.strValue (c : PasswordCfg) (av : PyVal) : Except Err String :=
  if c.autoGenerate ∧ truthy av = false then Except.ok c.genword
  else match av with
    | PyVal.s v => Except.ok v
    | _ => Except.error Err.typeError

/-- ViewFieldPassword.set (lines 361-387). -/
def ViewFieldPassword.set (c : PasswordCfg) (fetches : LdapFetch) (modlist : Modlist)
    (a : Assignments) : Except Err (LdapFetch × Modlist × Assignments) :=
  match dget a c.key with
  | none => Except.ok (fetches, modlist, a)
  | some av =>
    if isEnabled c.key a = false then Except.ok (fetches, modlist, a)
    else if c.writable = false then Except.error Err.badRequest
    else match ViewFieldPassword.strValue c av with
      | Except.error e => Except.error e
      | Except.ok sv =>
        if c.pwnedPasswordCheck ∧ c.pwnedOracle sv then Except.error Err.badRequest
        else
          let value := c.hashing sv
          if value = "" then
            if c.required ∧ isEnabled c.key a then Except.error Err.badRequest
            else
              let ml := match dget fetches.values c.field with
                | some _ => dset modlist c.field [(LdapMod.delete, [])]
                | none => modlist
              Except.ok
                ({ fetches with values := dset fetches.values c.field [PyVal.s value] },
                 ml, a)
          else
            let ml := match dget fetches.values c.field with
              | some fv =>
                if fv.length = 1 ∧ fv.head? = some (PyVal.s value) then modlist
                else dset modlist c.field [(LdapMod.replace, [PyVal.s value])]
              | none => dset modlist c.field [(LdapMod.add, [PyVal.s value])]
            Except.ok
              ({ fetches with values := dset fetches.values c.field [PyVal.s value] },
               ml, a)

/-- ViewFieldPassword.create (lines 389-411). -/
def ViewFieldPassword.create (c : PasswordCfg) (fetches : LdapFetch)
    (addlist : Addlist) (a : Assignments) :
    Except Err (LdapFetch × Addlist × Assignments) :=
  match dget a c.key with
  | none =>
    if c.required ∧ isEnabled c.key a then Except.error Err.badRequest
    else Except.ok (fetches, addlist, a)
  | some av =>
    if c.creatable = false then Except.error Err.badRequest
    else match ViewFieldPassword.strValue c av with
      | Except.error e => Except.error e
      | Except.ok sv =>
        if c.pwnedPasswordCheck ∧ c.pwnedOracle sv then Except.error Err.badRequest
        else
          let value := c.hashing sv
          if dcontains fetches.values c.field then Except.error Err.badRequest
          else if value = "" ∧ c.required then Except.error Err.badRequest
          else Except.ok
            ({ fetches with values := dset fetches.values c.field [PyVal.s value] },
             dset addlist c.field [PyVal.s value], a)

/-- ViewFieldPassword.get (lines 343-350); the bytes-decoding branch is
invisible here since the embedding has no separate bytes values. -/
def ViewFieldPassword.get (c : PasswordCfg) (fetches : LdapFetch)
    (results : List (String × PyVal)) : Except Err (List (String × PyVal)) :=
  if c.readable = false ∨ isEnabled c.key results = false then Except.ok results
  else match dget fetches.values c.field with
    | some (v0 :: _) => Except.ok (dset results c.key v0)
    | _ => Except.ok results

/- ------------------------------------------------------------------ -/
/- ViewFieldIsMemberOf (lines 521-591).                                -/
/- ------------------------------------------------------------------ -/

/-- ViewFieldIsMemberOf.get (lines 547-551). -/
def ViewFieldIsMemberOf.get (c : IsMemberOfCfg) (fetches : LdapFetch)
    (results : List (String × PyVal)) : Except Err (List (String × PyVal)) :=
  if c.readable = false ∨ isEnabled c.key results = false then Except.ok results
  else Except.ok (dset results c.key
    (PyVal.b (decide (PyVal.s c.memberOfDn ∈ dgetD fetches.values c.field []))))

/-- ViewFieldIsMemberOf.set_fetch (lines 553-562). -/
def ViewFieldIsMemberOf.set_fetch (c : IsMemberOfCfg) (fs : List String)
    (a : Assignments) : Except Err (List String) :=
  match dget a c.key with
  | none => Except.ok (if c.key = "_enabled" then setAdd fs c.field else fs)
  | some av =>
    if isEnabled c.key a = false then
      Except.ok (if c.key = "_enabled" then setAdd fs c.field else fs)
    else if c.required ∧ truthy av = false then Except.error Err.badRequest
    else if c.writable = false then Except.error Err.badRequest
    else Except.ok (setAdd fs c.field)

/-- ViewFieldIsMemberOf.set_post (lines 564-591): the writing side of the
membership boolean. Python issues the foreign modify through
foreign_view.save_foreign_field and then rolls the local fetch record
forward; the lines 589-590 re-check of the field key is a no-op after the
normalisation of lines 574-575 and is absorbed here. The Python
`list.remove` of line 591 can only be reached with the DN present, yet its
ValueError is still modelled for totality. -/
def ViewFieldIsMemberOf.set_post (c : IsMemberOfCfg) (fetches : LdapFetch)
    (a : Assignments) (is_new : Bool) :
    Except Err (LdapFetch × Assignments × List ForeignWrite) :=
  match dget a c.key with
  | none =>
    if is_new ∧ c.required ∧ isEnabled c.key a then Except.error Err.badRequest
    else if c.key = "_enabled" then
      Except.ok (fetches,
        dset a c.key
          (PyVal.b (decide (PyVal.s c.memberOfDn ∈ dgetD fetches.values c.field []))),
        [])
    else Except.ok (fetches, a, [])
  | some av =>
    if (¬ (is_new ∧ c.creatable)) ∧ c.writable = false then Except.error Err.badRequest
    else
      let values1 :=
        if dcontains fetches.values c.field then fetches.values
        else dset fetches.values c.field []
      let cur := dgetD values1 c.field []
      let isMember : Bool := decide (PyVal.s c.memberOfDn ∈ cur)
      if PyVal.b isMember = av then
        Except.ok ({ fetches with values := values1 }, a, [])
      else if truthy av then
        Except.ok
          ({ fetches with values := dset values1 c.field (cur ++ [PyVal.s c.memberOfDn]) },
           a,
           [⟨c.memberOfName, c.foreignField, LdapMod.add, [PyVal.s fetches.dn]⟩])
      else
        match listRemove cur (PyVal.s c.memberOfDn) with
        | some cur' =>
          Except.ok
            ({ fetches with values := dset values1 c.field cur' },
             a,
             [⟨c.memberOfName, c.foreignField, LdapMod.delete, [PyVal.s fetches.dn]⟩])
        | none => Except.error Err.valueError

/- ------------------------------------------------------------------ -/
/- ViewFieldObjectClass (lines 640-716).                               -/
/- ------------------------------------------------------------------ -/

/-- ViewFieldObjectClass.get (lines 656-660). -/
def ViewFieldObjectClass.get (c : ObjectClassCfg) (fetches : LdapFetch)
    (results : List (String × PyVal)) : Except Err (List (String × PyVal)) :=
  if c.readable = false ∨ isEnabled c.key results = false then Except.ok results
  else Except.ok (dset results c.key
    (PyVal.b (decide (PyVal.s c.objectClass ∈ dgetD fetches.values c.field []))))

/-- ViewFieldObjectClass.set_fetch (lines 662-671). -/
def ViewFieldObjectClass.set_fetch (c : ObjectClassCfg) (fs : List String)
    (a : Assignments) : Except Err (List String) :=
  match dget a c.key with
  | none => Except.ok (if c.key = "_enabled" then setAdd fs c.field else fs)
  | some av =>
    if isEnabled c.key a = false then
      Except.ok (if c.key = "_enabled" then setAdd fs c.field else fs)
    else if c.required ∧ truthy av = false then Except.error Err.badRequest
    else if c.writable = false then Except.error Err.badRequest
    else Except.ok (setAdd fs c.field)

/-- ViewFieldObjectClass.set (lines 673-692). In the skip branch the field
writes the `_enabled` signal back into the assignments when it is the
pseudo-field; the isEnabled guard is vacuous in that case. -/
def ViewFieldObjectClass.set (c : ObjectClassCfg) (fetches : LdapFetch)
    (modlist : Modlist) (a : Assignments) :
    Except Err (LdapFetch × Modlist × Assignments) :=
  match dget a c.key with
  | none =>
    if c.key = "_enabled" then
      Except.ok (fetches, modlist,
        dset a c.key
          (PyVal.b (decide (PyVal.s c.objectClass ∈ dgetD fetches.values c.field []))))
    else Except.ok (fetches, modlist, a)
  | some av =>
    if isEnabled c.key a = false then
      if c.key = "_enabled" then
        Except.ok (fetches, modlist,
          dset a c.key
            (PyVal.b (decide (PyVal.s c.objectClass ∈ dgetD fetches.values c.field []))))
      else Except.ok (fetches, modlist, a)
    else if c.writable = false then Except.error Err.badRequest
    else
      if truthy av = false then
        match dget fetches.values c.field with
        | some fv =>
          if PyVal.s c.objectClass ∈ fv then
            match listRemove fv (PyVal.s c.objectClass) with
            | some fv' =>
              Except.ok ({ fetches with values := dset fetches.values c.field fv' },
                dset modlist c.field [(LdapMod.delete, [PyVal.s c.objectClass])], a)
            | none => Except.error Err.valueError
          else Except.ok (fetches, modlist, a)
        | none => Except.ok (fetches, modlist, a)
      else
        match dget fetches.values c.field with
        | none =>
          Except.ok ({ fetches with values := dset fetches.values c.field [PyVal.s c.objectClass] },
            dset modlist c.field [(LdapMod.add, [PyVal.s c.objectClass])], a)
        | some fv =>
          if PyVal.s c.objectClass ∈ fv then Except.ok (fetches, modlist, a)
          else
            Except.ok ({ fetches with values := dset fetches.values c.field (fv ++ [PyVal.s c.objectClass]) },
              dset modlist c.field [(LdapMod.add, [PyVal.s c.objectClass])], a)

/-- ViewFieldObjectClass.create (lines 694-716). Line 705 subscripts
`addlist[self.field]` before testing membership, so a missing addlist key
raises KeyError; the addlist value is always a list here, so the non-list
branch of line 710 is unreachable in the embedding. -/
def ViewFieldObjectClass.create (c : ObjectClassCfg) (fetches : LdapFetch)
    (addlist : Addlist) (a : Assignments) :
    Except Err (LdapFetch × Addlist × Assignments) :=
  match dget a c.key with
  | none =>
    if c.required ∧ isEnabled c.key a then Except.error Err.badRequest
    else if c.key = "_enabled" then
      Except.ok (fetches, addlist, dset a c.key (PyVal.b false))
    else Except.ok (fetches, addlist, a)
  | some av =>
    if c.creatable = false then Except.error Err.badRequest
    else if truthy av then
      match dget addlist c.field with
      | none => Except.error Err.keyError
      | some nv =>
        let addlist' := dset addlist c.field (nv ++ [PyVal.s c.objectClass])
        match dget fetches.values c.field with
        | some fv =>
          Except.ok ({ fetches with values := dset fetches.values c.field (fv ++ [PyVal.s c.objectClass]) },
            addlist', a)
        | none =>
          Except.ok ({ fetches with values := dset fetches.values c.field [PyVal.s c.objectClass] },
            addlist', a)
    else Except.ok (fetches, addlist, a)

/- ------------------------------------------------------------------ -/
/- ViewField dispatchers over the closed variant set.                  -/
/- ------------------------------------------------------------------ -/

/-- Dispatch of the `set` phase. ViewFieldIsMemberOf and ViewFieldInitial do
not override the base-class `set`, which is a pass (lines 95-105, 618-619). -/
def ViewField.set : ViewField → LdapFetch → Modlist → Assignments →
    Except Err (LdapFetch × Modlist × Assignments)
  | ViewField.text c, f, ml, a => ViewFieldText.set c f ml a
  | ViewField.datetime c, f, ml, a => ViewFieldDateTime.set c f ml a
  | ViewField.password c, f, ml, a => ViewFieldPassword.set c f ml a
  | ViewField.isMemberOf _, f, ml, a => Except.ok (f, ml, a)
  | ViewField.objectClass c, f, ml, a => ViewFieldObjectClass.set c f ml a
  | ViewField.initial _ _, f, ml, a => Except.ok (f, ml, a)

/-- Dispatch of the `set_fetch` phase (ViewFieldInitial's is a pass,
lines 615-616). -/
def ViewField.set_fetch : ViewField → List String → Assignments →
    Except Err (List String)
  | ViewField.text c, fs, a => simpleSetFetch c.key c.field c.required c.writable fs a
  | ViewField.datetime c, fs, a => simpleSetFetch c.key c.field c.required c.writable fs a
  | ViewField.password c, fs, a => simpleSetFetch c.key c.field c.required c.writable fs a
  | ViewField.isMemberOf c, fs, a => ViewFieldIsMemberOf.set_fetch c fs a
  | ViewField.objectClass c, fs, a => ViewFieldObjectClass.set_fetch c fs a
  | ViewField.initial _ _, fs, _ => Except.ok fs

/-- Dispatch of the `get_fetch` phase: readable fields declare their
attribute unconditionally (there is no record yet to gate on);
ViewFieldInitial's is a pass (lines 609-610). -/
def ViewField.get_fetch : ViewField → List String → List String
  | ViewField.text c, fs => if c.readable then setAdd fs c.field else fs
  | ViewField.datetime c, fs => if c.readable then setAdd fs c.field else fs
  | ViewField.password c, fs => if c.readable then setAdd fs c.field else fs
  | ViewField.isMemberOf c, fs => if c.readable then setAdd fs c.field else fs
  | ViewField.objectClass c, fs => if c.readable then setAdd fs c.field else fs
  | ViewField.initial _ _, fs => fs

/-- Dispatch of the `get` phase (ViewFieldInitial's is a pass,
lines 612-613). -/
def ViewField.get : ViewField → LdapFetch → List (String × PyVal) →
    Except Err (List (String × PyVal))
  | ViewField.text c, f, res => ViewFieldText.get c f res
  | ViewField.datetime c, f, res => ViewFieldDateTime.get c f res
  | ViewField.password c, f, res => ViewFieldPassword.get c f res
  | ViewField.isMemberOf c, f, res => ViewFieldIsMemberOf.get c f res
  | ViewField.objectClass c, f, res => ViewFieldObjectClass.get c f res
  | ViewField.initial _ _, _, res => Except.ok res

/-- Dispatch of the `create` phase. ViewFieldIsMemberOf does not override the
base-class `create`, which is a pass (lines 107-117); ViewFieldInitial.create
(lines 621-627) subscripts the assignment unconditionally, rejects truthy
values, and otherwise forwards its literal value to the nested target. -/
def ViewField.create : ViewField → LdapFetch → Addlist → Assignments →
    Except Err (LdapFetch × Addlist × Assignments)
  | ViewField.text c, f, ad, a => ViewFieldText.create c f ad a
  | ViewField.datetime c, f, ad, a => ViewFieldDateTime.create c f ad a
  | ViewField.password c, f, ad, a => ViewFieldPassword.create c f ad a
  | ViewField.isMemberOf _, f, ad, a => Except.ok (f, ad, a)
  | ViewField.objectClass c, f, ad, a => ViewFieldObjectClass.create c f ad a
  | ViewField.initial c tgt, f, ad, a =>
    match dget a c.key with
    | none => Except.error Err.keyError
    | some av =>
      if truthy av then Except.error Err.badRequest
      else if isEnabled c.key a = false then Except.ok (f, ad, a)
      else ViewField.create tgt f ad (dset a (ViewField.key tgt) c.value)

/-- Dispatch of the `set_post` phase. Only ViewFieldIsMemberOf and
ViewFieldInitial override the base-class pass. ViewFieldInitial.set_post
(lines 629-637) opens with the dead conditional `if not is_new: pass`, which
has no effect, and then behaves exactly like its `create`. -/
def ViewField.set_post : ViewField → LdapFetch → Assignments → Bool →
    Except Err (LdapFetch × Assignments × List ForeignWrite)
  | ViewField.text _, f, a, _ => Except.ok (f, a, [])
  | ViewField.datetime _, f, a, _ => Except.ok (f, a, [])
  | ViewField.password _, f, a, _ => Except.ok (f, a, [])
  | ViewField.isMemberOf c, f, a, is_new => ViewFieldIsMemberOf.set_post c f a is_new
  | ViewField.objectClass _, f, a, _ => Except.ok (f, a, [])
  | ViewField.initial c tgt, f, a, is_new =>
    match dget a c.key with
    | none => Except.error Err.keyError
    | some av =>
      if truthy av then Except.error Err.badRequest
      else if isEnabled c.key a = false then Except.ok (f, a, [])
      else ViewField.set_post tgt f (dset a (ViewField.key tgt) c.value) is_new

/- ------------------------------------------------------------------ -/
/- Groups, projections and the update pipeline (view_details.py,       -/
/- view.py).                                                           -/
/- ------------------------------------------------------------------ -/

/-- ViewGroupFields.set (src/model/view_details.py lines 147-152): runs the
contained fields' `set` in declaration order, threading the fetch record,
modlist and group assignments; a field error aborts the group (the
HTTPBadRequestField re-wrapping preserves the error kind). -/
def ViewGroupFields.set : List ViewField → LdapFetch → Modlist → Assignments →
    Except Err (LdapFetch × Modlist × Assignments)
  | [], f, ml, a => Except.ok (f, ml, a)
  | fld :: rest, f, ml, a =>
    match ViewField.set fld f ml a with
    | Except.error e => Except.error e
    | Except.ok (f', ml', a') => ViewGroupFields.set rest f' ml' a'

/-- ViewDetails.set (src/model/view_details.py lines 354-367): each group
whose key appears in the request body runs on its own sub-assignments; the
mutated sub-dict is visible inside the request assignments afterwards. The
projection is modelled with fields groups, the group kind the update claims
are about. -/
def ViewDetails.set : List (String × List ViewField) → LdapFetch → Modlist →
    List (String × Assignments) →
    Except Err (LdapFetch × Modlist × List (String × Assignments))
  | [], f, ml, asg => Except.ok (f, ml, asg)
  | (gkey, fields) :: rest, f, ml, asg =>
    match dget asg gkey with
    | none => ViewDetails.set rest f ml asg
    | some ga =>
      match ViewGroupFields.set fields f ml ga with
      | Except.error e => Except.error e
      | Except.ok (f', ml', ga') => ViewDetails.set rest f' ml' (dset asg gkey ga')

/-- View._update (src/model/view.py lines 185-205), restricted to the `set`
phase and the modify decision: after the projection's `set` fills the
modlist, `modify` is issued if and only if the modlist is non-empty; an
error raised inside `set` propagates before any modify. (For the fields
groups modelled here, the trailing `set_post` performs no directory write.)
Returns the list of modify calls issued on the entry. -/
def View.updateModifies (dn : String) (groups : List (String × List ViewField))
    (fetched : LdapFetch) (asg : List (String × Assignments)) :
    List (String × Modlist) :=
  match ViewDetails.set groups fetched [] asg with
  | Except.error _ => []
  | Except.ok (_, ml, _) => if ml = [] then [] else [(dn, ml)]

/-- View._check_permissions (src/model/view.py lines 121-131): for a read the
empty readPermissions list grants access, otherwise any held read permission
returns early; both reads and writes then fall through to the write
permission loop, and Forbidden is raised when no loop returned. The
authenticated user record maps each configured permission name to a
boolean. -/
def View.check_permissions (permissions readPermissions : List String)
    (user : String → Bool) (writing : Bool) : Except Err Unit :=
  if writing = false ∧ readPermissions = [] then Except.ok ()
  else if writing = false ∧ readPermissions.any user then Except.ok ()
  else if permissions.any user then Except.ok ()
  else Except.error Err.forbidden

/- ------------------------------------------------------------------ -/
/- Anti-spam and registration (anti_spam.py, auth.py).                 -/
/- ------------------------------------------------------------------ -/

/-- A configured anti-spam question: its stable token and the compiled answer
regex's fullmatch (src/model/anti_spam.py Question). -/
structure Question where
  token : String
  verify : String → Bool

/-- The `question_by_token.get(container.get(token_key))` lookup of
AntiSpam.verify_answer (line 40): a missing or non-string token value never
matches a key of the string-keyed question dict. -/
def AntiSpam.lookupQuestion (questionByToken : List (String × Question))
    (container : List (String × PyVal)) (tokenKey : String) : Option Question :=
  match dget container tokenKey with
  | some (PyVal.s t) => dget questionByToken t
  | _ => none

/-- AntiSpam.verify_answer (src/model/anti_spam.py lines 39-44): a failed
token lookup raises Forbidden; a looked-up question whose answer regex does
not fullmatch raises Forbidden; regex.fullmatch on a missing (None) or
non-string answer raises TypeError. -/
def AntiSpam.verify_answer (questionByToken : List (String × Question))
    (container : List (String × PyVal)) (tokenKey answerKey : String) :
    Except Err Unit :=
  match AntiSpam.lookupQuestion questionByToken container tokenKey with
  | none => Except.error Err.forbidden
  | some q =>
    match dget container answerKey with
    | some (PyVal.s ans) =>
      if q.verify ans then Except.ok () else Except.error Err.forbidden
    | _ => Except.error Err.typeError

/-- RegisterUserApi.on_post (src/model/auth.py lines 80-91) invokes
view.create_register only after verify_answer returns; this flag records
whether the create was reached. -/
def RegisterUserApi.createInvoked (questionByToken : List (String × Question))
    (user : List (String × PyVal)) : Bool :=
  match AntiSpam.verify_answer questionByToken user "antiSpamToken" "antiSpamAnswer" with
  | Except.error _ => false
  | Except.ok _ => true

/- ------------------------------------------------------------------ -/
/- DN construction and parsing (view.py lines 275-308). Strings are    -/
/- modelled as character lists for these functions.                    -/
/- ------------------------------------------------------------------ -/

/-- The characters ldap3.utils.dn.escape_rdn escapes, in the order the
replacements are applied (backslash first). -/
def ViewDn.escape_chars : List Char :=
  ['\\', ',', '+', '"', '<', '>', ';', '=', '\x00']

/-- Python `rdn.replace(c, '\' + c)`. -/
def ViewDn.pyReplaceEsc (c : Char) : List Char → List Char
  | [] => []
  | x :: rest =>
    (if x = c then ['\\', c] else [x]) ++ ViewDn.pyReplaceEsc c rest

/-- ldap3.utils.dn.escape_rdn: sequentially escapes the special characters,
then protects a leading '#' or space and a trailing space. (Python indexes
rdn[0] and rdn[-1] and so crashes on the empty string; the embedding is
total, and the round-trip theorem assumes a non-empty key.) -/
def ViewDn.escape_rdn (rdn : List Char) : List Char :=
  let r := ViewDn.escape_chars.foldl (fun acc c => ViewDn.pyReplaceEsc c acc) rdn
  let r2 := if r.head? = some '#' ∨ r.head? = some ' ' then '\\' :: r else r
  if r2.getLast? = some ' ' then r2.dropLast ++ ['\\', ' '] else r2

/-- View.get_dn (src/model/view.py lines 275-276):
`primaryKey + "=" + escape_rdn(pk) + "," + dn`. -/
def ViewDn.get_dn (primaryKey baseDn pk : List Char) : List Char :=
  primaryKey ++ ['='] ++ ViewDn.escape_rdn pk ++ [','] ++ baseDn

/-- View.try_get_primary_key (src/model/view.py lines 302-308): checks the
`primaryKey=` start and the `,baseDn` end, strips them, and rejects any
remaining '='. -/
def ViewDn.try_get_primary_key (primaryKey baseDn dn : List Char) :
    Option (List Char) :=
  let pre := primaryKey ++ ['=']
  let suf := [','] ++ baseDn
  if pre.isPrefixOf dn = false ∨ suf.isSuffixOf dn = false then none
  else
    let pk := (dn.take (dn.length - suf.length)).drop pre.length
    if '=' ∈ pk then none else some pk

/- ------------------------------------------------------------------ -/
/- Helper lemmas.                                                      -/
/- ------------------------------------------------------------------ -/

/-- Writing back the value a key already holds leaves the dict unchanged. -/
theorem dset_eq_of_dget {α : Type} (d : List (String × α)) (k : String) (v : α)
    (h : dget d k = some v) : dset d k v = d := by
  induction d with
  | nil => simp [dget] at h
  | cons hd tl ih =>
    obtain ⟨k', v'⟩ := hd
    by_cases hk : k' = k
    · subst hk
      simp [dget] at h
      simp [dset, h]
    · simp [dget, hk] at h
      simp [dset, hk, ih h]

/-- Lookup after write finds the written value. -/
theorem dget_dset {α : Type} (d : List (String × α)) (k : String) (v : α) :
    dget (dset d k v) k = some v := by
  induction d with
  | nil => simp [dget, dset]
  | cons hd tl ih =>
    obtain ⟨k', v'⟩ := hd
    by_cases hk : k' = k
    · subst hk; simp [dset, dget]
    · simp [dset, hk, dget, ih]

/-- A list has length one with a given head exactly when it is that
singleton. -/
theorem length_one_head_iff {α : Type} (l : List α) (x : α) :
    (l.length = 1 ∧ l.head? = some x) ↔ l = [x] := by
  cases l with
  | nil => simp
  | cons y t =>
    cases t with
    | nil => simp [List.head?]
    | cons z t2 => simp [List.head?]

/-- Removing the sole occurrence of an element leaves a list without it. -/
theorem listRemove_not_mem (l : List PyVal) (x : PyVal) (l' : List PyVal)
    (h : listRemove l x = some l') (hc : l.count x ≤ 1) : x ∉ l' := by
  induction l generalizing l' with
  | nil => simp [listRemove] at h
  | cons y rest ih =>
    by_cases hy : y = x
    · subst hy
      simp [listRemove] at h
      subst h
      have h1 := List.count_cons_self y rest
      have h0 : rest.count y = 0 := by omega
      exact List.count_eq_zero.mp h0
    · simp only [listRemove, if_neg hy, Option.map_eq_some'] at h
      obtain ⟨r', hr', hl'⟩ := h
      subst hl'
      have hcr : rest.count x ≤ 1 := by
        rw [List.count_cons_of_ne (fun hh => hy hh.symm)] at hc
        exact hc
      intro hmem
      rcases List.mem_cons.mp hmem with h1 | h1
      · exact hy h1.symm
      · exact ih r' hr' hcr h1

/-- An element with a removable occurrence is a member. -/
theorem listRemove_isSome_mem (l : List PyVal) (x : PyVal) (l' : List PyVal)
    (h : listRemove l x = some l') : x ∈ l := by
  induction l generalizing l' with
  | nil => simp [listRemove] at h
  | cons y rest ih =>
    by_cases hy : y = x
    · subst hy; exact List.mem_cons_self y rest
    · simp [listRemove, hy] at h
      obtain ⟨r', hr', _⟩ := h
      exact List.mem_cons_of_mem y (ih r' hr')

/-- A member always has a removable occurrence. -/
theorem listRemove_isSome_of_mem (l : List PyVal) (x : PyVal) (h : x ∈ l) :
    ∃ l', listRemove l x = some l' := by
  induction l with
  | nil => simp at h
  | cons y rest ih =>
    by_cases hy : y = x
    · exact ⟨rest, by simp [listRemove, hy]⟩
    · rcases List.mem_cons.mp h with h1 | h1
      · exact absurd h1.symm hy
      · obtain ⟨r', hr'⟩ := ih h1
        exact ⟨y :: r', by simp [listRemove, hy, hr']⟩

/- ------------------------------------------------------------------ -/
/- Claim C7: View._check_permissions.                                  -/
/- ------------------------------------------------------------------ -/

/-- C7: the permission check admits a read exactly when `readPermissions` is
empty, or the user holds a read permission, or the user holds a write
permission; it admits a write exactly when the user holds a write
permission; otherwise it raises Forbidden. -/
theorem claimC7_check_permissions (permissions readPermissions : List String)
    (user : String → Bool) (writing : Bool) :
    (View.check_permissions permissions readPermissions user writing = Except.ok () ↔
      (if writing then ∃ p ∈ permissions, user p = true
       else readPermissions = [] ∨ (∃ p ∈ readPermissions, user p = true) ∨
            (∃ p ∈ permissions, user p = true))) ∧
    (View.check_permissions permissions readPermissions user writing
        = Except.error Err.forbidden ↔
      ¬ (if writing then ∃ p ∈ permissions, user p = true
         else readPermissions = [] ∨ (∃ p ∈ readPermissions, user p = true) ∨
              (∃ p ∈ permissions, user p = true))) := by
  unfold View.check_permissions
  cases writing with
  | true =>
    by_cases hw : permissions.any user
    · simp [hw, List.any_eq_true.mp hw]
    · constructor
      · simp only [hw]
        constructor
        · intro h; simp at h
        · intro h
          exact absurd (List.any_eq_true.mpr h) hw
      · simp only [hw]
        constructor
        · intro _ h
          exact absurd (List.any_eq_true.mpr h) hw
        · intro _; simp
  | false =>
    by_cases hre : readPermissions = []
    · subst hre
      simp [List.any_eq_true]
    · by_cases hr : readPermissions.any user
      · simp [hre, hr, List.any_eq_true.mp hr]
      · by_cases hw : permissions.any user
        · simp [hre, hr, hw, List.any_eq_true.mp hw]
        · have h1 : ¬ ∃ p ∈ readPermissions, user p = true :=
            fun h => hr (List.any_eq_true.mpr h)
          have h2 : ¬ ∃ p ∈ permissions, user p = true :=
            fun h => hw (List.any_eq_true.mpr h)
          simp [hre, hr, hw, h1, h2]

/- ------------------------------------------------------------------ -/
/- Claim C8: anti-spam verification gates registration.                -/
/- ------------------------------------------------------------------ -/

/-- C8: if the anti-spam token fails lookup in the configured question set,
or the supplied answer does not fullmatch the looked-up question's answer
regex, then verification raises Forbidden and the registration create is
never invoked. -/
theorem claimC8_antispam (questionByToken : List (String × Question))
    (user : List (String × PyVal))
    (h : AntiSpam.lookupQuestion questionByToken user "antiSpamToken" = none ∨
         (∃ q ans, AntiSpam.lookupQuestion questionByToken user "antiSpamToken" = some q ∧
            dget user "antiSpamAnswer" = some (PyVal.s ans) ∧ q.verify ans = false)) :
    AntiSpam.verify_answer questionByToken user "antiSpamToken" "antiSpamAnswer"
        = Except.error Err.forbidden ∧
    RegisterUserApi.createInvoked questionByToken user = false := by
  rcases h with h | ⟨q, ans, hq, hans, hv⟩
  · constructor
    · unfold AntiSpam.verify_answer
      rw [h]
    · unfold RegisterUserApi.createInvoked AntiSpam.verify_answer
      rw [h]
  · constructor
    · unfold AntiSpam.verify_answer
      rw [hq, hans]
      simp [hv]
    · unfold RegisterUserApi.createInvoked AntiSpam.verify_answer
      rw [hq, hans]
      simp [hv]

/-- Witness for C8 at a concrete question set and submission: the token is
known but the answer fails the regex, so the request is rejected with
Forbidden before the create. -/
theorem claimC8_witness :
    (AntiSpam.lookupQuestion [("tok1", ⟨"tok1", fun a => a = "4"⟩)]
        [("antiSpamToken", PyVal.s "tok1"), ("antiSpamAnswer", PyVal.s "5")]
        "antiSpamToken" = none ∨
      (∃ q ans, AntiSpam.lookupQuestion [("tok1", ⟨"tok1", fun a => a = "4"⟩)]
          [("antiSpamToken", PyVal.s "tok1"), ("antiSpamAnswer", PyVal.s "5")]
          "antiSpamToken" = some q ∧
        dget [("antiSpamToken", PyVal.s "tok1"), ("antiSpamAnswer", PyVal.s "5")]
          "antiSpamAnswer" = some (PyVal.s ans) ∧ q.verify ans = false)) ∧
    (AntiSpam.verify_answer [("tok1", ⟨"tok1", fun a => a = "4"⟩)]
        [("antiSpamToken", PyVal.s "tok1"), ("antiSpamAnswer", PyVal.s "5")]
        "antiSpamToken" "antiSpamAnswer" = Except.error Err.forbidden ∧
      RegisterUserApi.createInvoked [("tok1", ⟨"tok1", fun a => a = "4"⟩)]
        [("antiSpamToken", PyVal.s "tok1"), ("antiSpamAnswer", PyVal.s "5")] = false) := by
  have hyp : AntiSpam.lookupQuestion [("tok1", ⟨"tok1", fun a => a = "4"⟩)]
      [("antiSpamToken", PyVal.s "tok1"), ("antiSpamAnswer", PyVal.s "5")]
      "antiSpamToken" = none ∨
    (∃ q ans, AntiSpam.lookupQuestion [("tok1", ⟨"tok1", fun a => a = "4"⟩)]
        [("antiSpamToken", PyVal.s "tok1"), ("antiSpamAnswer", PyVal.s "5")]
        "antiSpamToken" = some q ∧
      dget [("antiSpamToken", PyVal.s "tok1"), ("antiSpamAnswer", PyVal.s "5")]
        "antiSpamAnswer" = some (PyVal.s ans) ∧ q.verify ans = false) :=
    Or.inr ⟨⟨"tok1", fun a => a = "4"⟩, "5", rfl, rfl, by decide⟩
  exact ⟨hyp, claimC8_antispam _ _ hyp⟩

/- ------------------------------------------------------------------ -/
/- Claim C5: ViewFieldInitial.set_post with is_new = false.            -/
/- ------------------------------------------------------------------ -/

/-- C5: evaluating ViewFieldInitial.set_post at a concrete update input with
is_new = false. The dead conditional `if not is_new: pass` of line 630 does
not return, so instead of the specified no-op the phase writes the literal
value into the assignments under the target key and forwards to the
target's set_post. -/
theorem claimC5_initial_set_post_not_noop :
    ViewField.set_post
      (ViewField.initial ⟨"init", PyVal.s "x"⟩
        (ViewField.text
          { key := "t", field := "t", required := false, creatable := true,
            readable := true, writable := true, fmtMatch := (fun _ => true),
            enumValues := none }))
      ⟨"dn0", []⟩ [("init", PyVal.b false)] false
      = Except.ok (⟨"dn0", []⟩, [("init", PyVal.b false), ("t", PyVal.s "x")], []) ∧
    ([("init", PyVal.b false), ("t", PyVal.s "x")] : Assignments)
      ≠ [("init", PyVal.b false)] := by
  exact ⟨rfl, by decide⟩

/- ------------------------------------------------------------------ -/
/- Claim C10: ViewFieldInitial.create / set_post subscript the key.    -/
/- ------------------------------------------------------------------ -/

/-- C10: for an `initial` field, `create` and `set_post` read
`assignments[key]` unconditionally, so a missing key raises an unhandled
KeyError (not a 400); a truthy value is rejected with BadRequest; the phases
proceed without error only when the key is present with a falsy value. -/
theorem claimC10_initial_reads_key (c : InitialCfg) (tgt : ViewField)
    (f : LdapFetch) (ad : Addlist) (a : Assignments) (is_new : Bool) :
    (dget a c.key = none →
      ViewField.create (ViewField.initial c tgt) f ad a = Except.error Err.keyError ∧
      ViewField.set_post (ViewField.initial c tgt) f a is_new = Except.error Err.keyError) ∧
    (∀ t, dget a c.key = some t → truthy t = true →
      ViewField.create (ViewField.initial c tgt) f ad a = Except.error Err.badRequest ∧
      ViewField.set_post (ViewField.initial c tgt) f a is_new = Except.error Err.badRequest) ∧
    (∀ r, ViewField.create (ViewField.initial c tgt) f ad a = Except.ok r →
      ∃ t, dget a c.key = some t ∧ truthy t = false) ∧
    (∀ r, ViewField.set_post (ViewField.initial c tgt) f a is_new = Except.ok r →
      ∃ t, dget a c.key = some t ∧ truthy t = false) := by
  refine ⟨?_, ?_, ?_, ?_⟩
  · intro h
    constructor
    · simp [ViewField.create, h]
    · simp [ViewField.set_post, h]
  · intro t ht htr
    constructor
    · simp [ViewField.create, ht, htr]
    · simp [ViewField.set_post, ht, htr]
  · intro r hr
    cases hk : dget a c.key with
    | none => simp [ViewField.create, hk] at hr
    | some t =>
      refine ⟨t, rfl, ?_⟩
      by_cases htr : truthy t = true
      · simp [ViewField.create, hk, htr] at hr
      · simpa using htr
  · intro r hr
    cases hk : dget a c.key with
    | none => simp [ViewField.set_post, hk] at hr
    | some t =>
      refine ⟨t, rfl, ?_⟩
      by_cases htr : truthy t = true
      · simp [ViewField.set_post, hk, htr] at hr
      · simpa using htr

/-- Witness for C10 at concrete inputs: a missing key raises KeyError on
create, and a truthy value is rejected with BadRequest on set_post. -/
theorem claimC10_witness :
    ViewField.create
      (ViewField.initial ⟨"init", PyVal.s "x"⟩
        (ViewField.text
          { key := "t", field := "t", required := false, creatable := true,
            readable := true, writable := true, fmtMatch := (fun _ => true),
            enumValues := none }))
      ⟨"dn0", []⟩ [] [] = Except.error Err.keyError ∧
    ViewField.set_post
      (ViewField.initial ⟨"init", PyVal.s "x"⟩
        (ViewField.text
          { key := "t", field := "t", required := false, creatable := true,
            readable := true, writable := true, fmtMatch := (fun _ => true),
            enumValues := none }))
      ⟨"dn0", []⟩ [("init", PyVal.b true)] false = Except.error Err.badRequest :=
  ⟨((claimC10_initial_reads_key ⟨"init", PyVal.s "x"⟩ _ _ _ [] false).1 rfl).1,
   (((claimC10_initial_reads_key ⟨"init", PyVal.s "x"⟩ _ _ []
      [("init", PyVal.b true)] false).2.1) (PyVal.b true) rfl rfl).2⟩

/- ------------------------------------------------------------------ -/
/- Claim C9: get_dn / try_get_primary_key round trip.                  -/
/- ------------------------------------------------------------------ -/

/-- Replacing a character that does not occur is the identity. -/
theorem pyReplaceEsc_eq_self (c : Char) (l : List Char) (h : c ∉ l) :
    ViewDn.pyReplaceEsc c l = l := by
  induction l with
  | nil => rfl
  | cons x rest ih =>
    have hx : x ≠ c := fun hh => h (hh ▸ List.mem_cons_self x rest)
    have hrest : c ∉ rest := fun hh => h (List.mem_cons_of_mem x hh)
    simp [ViewDn.pyReplaceEsc, hx, ih hrest]

/-- Folding the escape replacements over a string containing none of the
escape characters is the identity. -/
theorem foldl_replace_eq_self (cs : List Char) (l : List Char)
    (h : ∀ c ∈ cs, c ∉ l) :
    cs.foldl (fun acc c => ViewDn.pyReplaceEsc c acc) l = l := by
  induction cs with
  | nil => rfl
  | cons c rest ih =>
    simp only [List.foldl_cons]
    rw [pyReplaceEsc_eq_self c l (h c (List.mem_cons_self c rest))]
    exact ih (fun c' hc' => h c' (List.mem_cons_of_mem c hc'))

/-- escape_rdn is the identity on keys free of escapable characters, of a
leading '#' or space, and of a trailing space. -/
theorem escape_rdn_eq_self (pk : List Char)
    (hesc : ∀ c ∈ pk, c ∉ ViewDn.escape_chars)
    (hh : pk.head? ≠ some '#') (hh2 : pk.head? ≠ some ' ')
    (hl : pk.getLast? ≠ some ' ') :
    ViewDn.escape_rdn pk = pk := by
  have h1 : ViewDn.escape_chars.foldl (fun acc c => ViewDn.pyReplaceEsc c acc) pk = pk :=
    foldl_replace_eq_self _ _ (fun c hc hmem => hesc c hmem hc)
  have hcond : ¬ (pk.head? = some '#' ∨ pk.head? = some ' ') := by
    rintro (h | h)
    · exact hh h
    · exact hh2 h
  simp only [ViewDn.escape_rdn, h1]
  rw [if_neg hcond]
  rw [if_neg hl]

/-- C9: a primary key free of RDN-escaping characters round-trips through
get_dn and try_get_primary_key, and any DN that lacks the `primaryKey=`
start or the `,baseDn` end parses to none. -/
theorem claimC9_dn_roundtrip (primaryKey baseDn pk : List Char)
    (hne : pk ≠ [])
    (hesc : ∀ c ∈ pk, c ∉ ViewDn.escape_chars)
    (hh : pk.head? ≠ some '#') (hh2 : pk.head? ≠ some ' ')
    (hl : pk.getLast? ≠ some ' ') :
    ViewDn.try_get_primary_key primaryKey baseDn
        (ViewDn.get_dn primaryKey baseDn pk) = some pk ∧
    ∀ dn : List Char,
      ((primaryKey ++ ['=']).isPrefixOf dn = false ∨
        (([','] ++ baseDn).isSuffixOf dn = false)) →
      ViewDn.try_get_primary_key primaryKey baseDn dn = none := by
  constructor
  · have hrdn : ViewDn.escape_rdn pk = pk := escape_rdn_eq_self pk hesc hh hh2 hl
    have hdn : ViewDn.get_dn primaryKey baseDn pk
        = ((primaryKey ++ ['=']) ++ pk) ++ ([','] ++ baseDn) := by
      unfold ViewDn.get_dn
      rw [hrdn]
      simp [List.append_assoc]
    rw [hdn]
    have hpre : (primaryKey ++ ['=']).isPrefixOf
        (((primaryKey ++ ['=']) ++ pk) ++ ([','] ++ baseDn)) = true := by
      rw [List.isPrefixOf_iff_prefix, List.append_assoc]
      exact List.prefix_append _ _
    have hsuf : (([','] ++ baseDn)).isSuffixOf
        (((primaryKey ++ ['=']) ++ pk) ++ ([','] ++ baseDn)) = true := by
      rw [List.isSuffixOf_iff_suffix]
      exact List.suffix_append _ _
    have hmid : List.drop (primaryKey ++ ['=']).length
        (List.take
          ((((primaryKey ++ ['=']) ++ pk) ++ ([','] ++ baseDn)).length
            - ([','] ++ baseDn).length)
          (((primaryKey ++ ['=']) ++ pk) ++ ([','] ++ baseDn))) = pk := by
      have hlen : (((primaryKey ++ ['=']) ++ pk) ++ ([','] ++ baseDn)).length
          - ([','] ++ baseDn).length = ((primaryKey ++ ['=']) ++ pk).length := by
        simp [List.length_append]
        omega
      rw [hlen, List.take_left, List.drop_left]
    have hne2 : ¬ ('=' ∈ pk) := fun hmem => hesc '=' hmem (by decide)
    simp only [ViewDn.try_get_primary_key]
    rw [hpre, hsuf]
    rw [if_neg (by simp)]
    rw [hmid]
    rw [if_neg hne2]
  · intro dn hdn
    simp only [ViewDn.try_get_primary_key]
    rcases hdn with h | h
    · rw [if_pos (Or.inl h)]
    · rw [if_pos (Or.inr h)]

/-- Witness for C9 at a concrete key and view: `uid=alice,ou=users`
round-trips, and a foreign DN parses to none. -/
theorem claimC9_witness :
    (['a', 'l', 'i', 'c', 'e'] ≠ ([] : List Char)) ∧
    ViewDn.try_get_primary_key ['u', 'i', 'd']
        ['o', 'u', '=', 'u', 's', 'e', 'r', 's']
        (ViewDn.get_dn ['u', 'i', 'd'] ['o', 'u', '=', 'u', 's', 'e', 'r', 's']
          ['a', 'l', 'i', 'c', 'e']) = some ['a', 'l', 'i', 'c', 'e'] ∧
    ViewDn.try_get_primary_key ['u', 'i', 'd']
        ['o', 'u', '=', 'u', 's', 'e', 'r', 's']
        ['c', 'n', '=', 'x'] = none := by
  have h := claimC9_dn_roundtrip ['u', 'i', 'd'] ['o', 'u', '=', 'u', 's', 'e', 'r', 's']
    ['a', 'l', 'i', 'c', 'e'] (by decide) (by decide) (by decide) (by decide) (by decide)
  exact ⟨by decide, h.1, h.2 ['c', 'n', '=', 'x'] (by decide)⟩

/- ------------------------------------------------------------------ -/
/- Claim C2: write strategy of ViewFieldText.set.                      -/
/- ------------------------------------------------------------------ -/

/-- The write strategy of a validated text assignment as a case formula
(the amended C2): for a non-empty value, no modification when the attribute
holds exactly the singleton value, ADD when absent, REPLACE otherwise; for
an empty value, DELETE when the attribute is present and nothing when it is
absent. -/
def textSetSpec (c : TextCfg) (v : String) (fetch : LdapFetch) : Modlist :=
  if v = "" then
    match dget fetch.values c.field with
    | some _ => [(c.field, [(LdapMod.delete, [])])]
    | none => []
  else
    match dget fetch.values c.field with
    | some fv =>
      if fv = [PyVal.s v] then []
      else [(c.field, [(LdapMod.replace, [PyVal.s v])])]
    | none => [(c.field, [(LdapMod.add, [PyVal.s v])])]

/-- C2 (amended): an enabled text assignment accepted by `set` (it returned
without raising, starting from an empty modlist) emits exactly the modlist
of `textSetSpec`: the claim's four cases with the ADD and REPLACE cases
restricted to non-empty values, no modification when the attribute holds
exactly the value or when an empty value meets an absent attribute, and
DELETE when an empty value meets a present attribute. -/
theorem claimC2_amended (c : TextCfg) (v : String) (fetch : LdapFetch)
    (a : Assignments) (f' : LdapFetch) (ml' : Modlist) (a' : Assignments)
    (h1 : dget a c.key = some (PyVal.s v))
    (h2 : isEnabled c.key a = true)
    (h3 : ViewFieldText.set c fetch [] a = Except.ok (f', ml', a')) :
    ml' = textSetSpec c v fetch := by
  unfold ViewFieldText.set at h3
  simp only [h1] at h3
  rw [if_neg (by simp [h2])] at h3
  by_cases hw : c.writable = false
  · rw [if_pos hw] at h3
    simp at h3
  · rw [if_neg hw] at h3
    cases hv : ViewFieldText.validate c (PyVal.s v) with
    | error e =>
      simp only [hv] at h3
      simp at h3
    | ok u =>
      simp only [hv] at h3
      by_cases hv0 : v = ""
      · subst hv0
        have ht : truthy (PyVal.s "") = false := by decide
        rw [if_pos ht] at h3
        by_cases hreq : c.required = true
        · rw [if_pos hreq] at h3
          simp at h3
        · rw [if_neg hreq] at h3
          cases hd : dget fetch.values c.field with
          | some fv =>
            simp only [hd] at h3
            simp only [Except.ok.injEq, Prod.mk.injEq] at h3
            obtain ⟨_, hml, _⟩ := h3
            subst hml
            simp [textSetSpec, hd, dset]
          | none =>
            simp only [hd] at h3
            simp only [Except.ok.injEq, Prod.mk.injEq] at h3
            obtain ⟨_, hml, _⟩ := h3
            subst hml
            simp [textSetSpec, hd]
      · have ht : truthy (PyVal.s v) = true := by
          simp [truthy, hv0]
        rw [if_neg (by simp [ht])] at h3
        cases hd : dget fetch.values c.field with
        | some fv =>
          simp only [hd] at h3
          by_cases hfv : fv.length = 1 ∧ fv.head? = some (PyVal.s v)
          · rw [if_pos hfv] at h3
            simp only [Except.ok.injEq, Prod.mk.injEq] at h3
            obtain ⟨_, hml, _⟩ := h3
            subst hml
            have hfv2 : fv = [PyVal.s v] := (length_one_head_iff fv (PyVal.s v)).mp hfv
            simp [textSetSpec, hd, hv0, hfv2]
          · rw [if_neg hfv] at h3
            simp only [Except.ok.injEq, Prod.mk.injEq] at h3
            obtain ⟨_, hml, _⟩ := h3
            subst hml
            have hfv2 : fv ≠ [PyVal.s v] := by
              intro hh
              exact hfv ((length_one_head_iff fv (PyVal.s v)).mpr hh)
            simp [textSetSpec, hd, hv0, hfv2, dset]
        | none =>
          simp only [hd] at h3
          simp only [Except.ok.injEq, Prod.mk.injEq] at h3
          obtain ⟨_, hml, _⟩ := h3
          subst hml
          simp [textSetSpec, hd, hv0, dset]

/-- C2 counterexample: at the concrete input where an empty value is assigned
while the attribute is present with a different value (so the claim's REPLACE
case applies as stated), the code emits a DELETE with empty values, not the
REPLACE the claim requires. -/
theorem claimC2_counterexample :
    ViewFieldText.set
      { key := "m", field := "mail", required := false, creatable := true,
        readable := true, writable := true, fmtMatch := (fun _ => true),
        enumValues := none }
      ⟨"dn0", [("mail", [PyVal.s "x"])]⟩ [] [("m", PyVal.s "")]
      = Except.ok (⟨"dn0", [("mail", [PyVal.s ""])]⟩,
          [("mail", [(LdapMod.delete, [])])], [("m", PyVal.s "")]) ∧
    ([("mail", [(LdapMod.delete, ([] : List PyVal))])] : Modlist)
      ≠ [("mail", [(LdapMod.replace, [PyVal.s ""])])] := by
  exact ⟨rfl, by decide⟩

/-- Witness for C2 (amended) at a concrete field: assigning "b" over a fetch
record holding "a" yields exactly the REPLACE case of the formula. -/
theorem claimC2_witness :
    dget [("m", PyVal.s "b")] "m" = some (PyVal.s "b") ∧
    isEnabled "m" [("m", PyVal.s "b")] = true ∧
    ([("mail", [(LdapMod.replace, [PyVal.s "b"])])] : Modlist)
      = textSetSpec
          { key := "m", field := "mail", required := false, creatable := true,
            readable := true, writable := true, fmtMatch := (fun _ => true),
            enumValues := none }
          "b" ⟨"dn0", [("mail", [PyVal.s "a"])]⟩ :=
  ⟨rfl, rfl,
    claimC2_amended
      { key := "m", field := "mail", required := false, creatable := true,
        readable := true, writable := true, fmtMatch := (fun _ => true),
        enumValues := none }
      "b" ⟨"dn0", [("mail", [PyVal.s "a"])]⟩ [("m", PyVal.s "b")]
      ⟨"dn0", [("mail", [PyVal.s "b"])]⟩
      [("mail", [(LdapMod.replace, [PyVal.s "b"])])]
      [("m", PyVal.s "b")] rfl rfl rfl⟩

/- ------------------------------------------------------------------ -/
/- Claim C6: password set always replaces, up to hash collision.       -/
/- ------------------------------------------------------------------ -/

/-- The write strategy of a non-empty password assignment over a present
attribute (the amended C6): a REPLACE carrying the new hash unless the
fetched attribute already holds exactly that hash as its sole value, in
which case no modification is emitted. With a salted hash the two never
coincide; with a deterministic configured hash such as ldap plaintext they
can. -/
def passwordSetSpec (c : PasswordCfg) (v : String) (fv : List PyVal) : Modlist :=
  if fv = [PyVal.s (c.hashing v)] then []
  else [(c.field, [(LdapMod.replace, [PyVal.s (c.hashing v)])])]

/-- C6 (amended): an enabled non-empty password assignment accepted by `set`
over a present attribute emits a REPLACE with the newly computed (non-empty)
hash, except when the fetched value list is exactly the singleton hash, in
which case no modification is emitted. -/
theorem claimC6_amended (c : PasswordCfg) (v : String) (fetch : LdapFetch)
    (a : Assignments) (fv : List PyVal) (f' : LdapFetch) (ml' : Modlist)
    (a' : Assignments)
    (h1 : dget a c.key = some (PyVal.s v))
    (h2 : v ≠ "")
    (h2e : isEnabled c.key a = true)
    (h3 : dget fetch.values c.field = some fv)
    (h4 : c.hashing v ≠ "")
    (h5 : ViewFieldPassword.set c fetch [] a = Except.ok (f', ml', a')) :
    ml' = passwordSetSpec c v fv := by
  have ht : truthy (PyVal.s v) = true := by simp [truthy, h2]
  have hsv : ViewFieldPassword.strValue c (PyVal.s v) = Except.ok v := by
    unfold ViewFieldPassword.strValue
    rw [if_neg (by rintro ⟨_, hq⟩; rw [ht] at hq; cases hq)]
  unfold ViewFieldPassword.set at h5
  simp only [h1] at h5
  rw [if_neg (by simp [h2e])] at h5
  by_cases hw : c.writable = false
  · rw [if_pos hw] at h5
    simp at h5
  · rw [if_neg hw] at h5
    simp only [hsv] at h5
    by_cases hpw : c.pwnedPasswordCheck = true ∧ c.pwnedOracle v = true
    · rw [if_pos hpw] at h5
      simp at h5
    · rw [if_neg hpw] at h5
      rw [if_neg h4] at h5
      simp only [h3] at h5
      by_cases hfv : fv.length = 1 ∧ fv.head? = some (PyVal.s (c.hashing v))
      · rw [if_pos hfv] at h5
        simp only [Except.ok.injEq, Prod.mk.injEq] at h5
        obtain ⟨_, hml, _⟩ := h5
        subst hml
        have hfv2 : fv = [PyVal.s (c.hashing v)] :=
          (length_one_head_iff fv (PyVal.s (c.hashing v))).mp hfv
        simp [passwordSetSpec, hfv2]
      · rw [if_neg hfv] at h5
        simp only [Except.ok.injEq, Prod.mk.injEq] at h5
        obtain ⟨_, hml, _⟩ := h5
        subst hml
        have hfv2 : fv ≠ [PyVal.s (c.hashing v)] := by
          intro hh
          exact hfv ((length_one_head_iff fv (PyVal.s (c.hashing v))).mpr hh)
        simp [passwordSetSpec, hfv2, dset]

/-- C6 counterexample: with the deterministic ldap plaintext hash the
computed hash of the assigned value equals the stored value, and the code
emits no modification, contradicting the claim that a REPLACE is always
emitted regardless of prior value equality. -/
theorem claimC6_counterexample :
    ViewFieldPassword.set
      { key := "p", field := "userPassword", required := false, creatable := true,
        readable := true, writable := true, autoGenerate := false,
        hashing := (fun s => s), pwnedPasswordCheck := false,
        pwnedOracle := (fun _ => false), genword := "gen" }
      ⟨"dn0", [("userPassword", [PyVal.s "pw"])]⟩ [] [("p", PyVal.s "pw")]
      = Except.ok (⟨"dn0", [("userPassword", [PyVal.s "pw"])]⟩, [],
          [("p", PyVal.s "pw")]) ∧
    (([] : Modlist) ≠ [("userPassword", [(LdapMod.replace, [PyVal.s "pw"])])]) := by
  exact ⟨rfl, by decide⟩

/-- Witness for C6 (amended): a fetch record holding an older hash receives
the REPLACE with the newly computed hash. -/
theorem claimC6_witness :
    ("pw" : String) ≠ "" ∧
    ([("userPassword", [(LdapMod.replace, [PyVal.s "Hpw"])])] : Modlist)
      = passwordSetSpec
          { key := "p", field := "userPassword", required := false, creatable := true,
            readable := true, writable := true, autoGenerate := false,
            hashing := (fun s => "H" ++ s), pwnedPasswordCheck := false,
            pwnedOracle := (fun _ => false), genword := "gen" }
          "pw" [PyVal.s "old"] :=
  ⟨by decide,
    claimC6_amended
      { key := "p", field := "userPassword", required := false, creatable := true,
        readable := true, writable := true, autoGenerate := false,
        hashing := (fun s => "H" ++ s), pwnedPasswordCheck := false,
        pwnedOracle := (fun _ => false), genword := "gen" }
      "pw" ⟨"dn0", [("userPassword", [PyVal.s "old"])]⟩ [("p", PyVal.s "pw")]
      [PyVal.s "old"] ⟨"dn0", [("userPassword", [PyVal.s "Hpw"])]⟩
      [("userPassword", [(LdapMod.replace, [PyVal.s "Hpw"])])]
      [("p", PyVal.s "pw")]
      rfl (by decide) rfl rfl (by decide) rfl⟩

/- ------------------------------------------------------------------ -/
/- Claim C3: gating of disabled fields.                                -/
/- ------------------------------------------------------------------ -/

/-- C3 (amended): for every field whose key is not `_enabled`, when the
sibling `_enabled` value is falsy, the value-gated phases are no-ops: `set`
changes neither the fetch record, the modlist nor the assignments, it and
`set_fetch` raise no error and add nothing, and `get` (whose gate reads the
result document) writes nothing into the results. The phases `get_fetch`
and `create` are not gated this way: the counterexample shows them acting
on a disabled record. -/
theorem claimC3_amended (fld : ViewField) (f : LdapFetch) (ml : Modlist)
    (fs : List String) (a : Assignments) (results : List (String × PyVal))
    (ev ev' : PyVal)
    (hkey : ViewField.key fld ≠ "_enabled")
    (ha : dget a "_enabled" = some ev) (hev : truthy ev = false)
    (hr : dget results "_enabled" = some ev') (hev' : truthy ev' = false) :
    ViewField.set fld f ml a = Except.ok (f, ml, a) ∧
    ViewField.set_fetch fld fs a = Except.ok fs ∧
    ViewField.get fld f results = Except.ok results := by
  cases fld with
  | text c =>
    simp only [ViewField.key] at hkey
    have hen : isEnabled c.key a = false := by simp [isEnabled, hkey, ha, hev]
    have henr : isEnabled c.key results = false := by simp [isEnabled, hkey, hr, hev']
    refine ⟨?_, ?_, ?_⟩
    · simp only [ViewField.set]
      unfold ViewFieldText.set
      cases hk : dget a c.key with
      | none => rfl
      | some av => simp [hen]
    · simp only [ViewField.set_fetch]
      unfold simpleSetFetch
      cases hk : dget a c.key with
      | none => rfl
      | some av => simp [hen]
    · simp only [ViewField.get]
      unfold ViewFieldText.get
      rw [if_pos (Or.inr henr)]
  | datetime c =>
    simp only [ViewField.key] at hkey
    have hen : isEnabled c.key a = false := by simp [isEnabled, hkey, ha, hev]
    have henr : isEnabled c.key results = false := by simp [isEnabled, hkey, hr, hev']
    refine ⟨?_, ?_, ?_⟩
    · simp only [ViewField.set]
      unfold ViewFieldDateTime.set
      cases hk : dget a c.key with
      | none => rfl
      | some av => simp [hen]
    · simp only [ViewField.set_fetch]
      unfold simpleSetFetch
      cases hk : dget a c.key with
      | none => rfl
      | some av => simp [hen]
    · simp only [ViewField.get]
      unfold ViewFieldDateTime.get
      rw [if_pos (Or.inr henr)]
  | password c =>
    simp only [ViewField.key] at hkey
    have hen : isEnabled c.key a = false := by simp [isEnabled, hkey, ha, hev]
    have henr : isEnabled c.key results = false := by simp [isEnabled, hkey, hr, hev']
    refine ⟨?_, ?_, ?_⟩
    · simp only [ViewField.set]
      unfold ViewFieldPassword.set
      cases hk : dget a c.key with
      | none => rfl
      | some av => simp [hen]
    · simp only [ViewField.set_fetch]
      unfold simpleSetFetch
      cases hk : dget a c.key with
      | none => rfl
      | some av => simp [hen]
    · simp only [ViewField.get]
      unfold ViewFieldPassword.get
      rw [if_pos (Or.inr henr)]
  | isMemberOf c =>
    simp only [ViewField.key] at hkey
    have hen : isEnabled c.key a = false := by simp [isEnabled, hkey, ha, hev]
    have henr : isEnabled c.key results = false := by simp [isEnabled, hkey, hr, hev']
    refine ⟨rfl, ?_, ?_⟩
    · simp only [ViewField.set_fetch]
      unfold ViewFieldIsMemberOf.set_fetch
      cases hk : dget a c.key with
      | none => simp [hkey]
      | some av => simp [hen, hkey]
    · simp only [ViewField.get]
      unfold ViewFieldIsMemberOf.get
      rw [if_pos (Or.inr henr)]
  | objectClass c =>
    simp only [ViewField.key] at hkey
    have hen : isEnabled c.key a = false := by simp [isEnabled, hkey, ha, hev]
    have henr : isEnabled c.key results = false := by simp [isEnabled, hkey, hr, hev']
    refine ⟨?_, ?_, ?_⟩
    · simp only [ViewField.set]
      unfold ViewFieldObjectClass.set
      cases hk : dget a c.key with
      | none => simp [hkey]
      | some av => simp [hen, hkey]
    · simp only [ViewField.set_fetch]
      unfold ViewFieldObjectClass.set_fetch
      cases hk : dget a c.key with
      | none => simp [hkey]
      | some av => simp [hen, hkey]
    · simp only [ViewField.get]
      unfold ViewFieldObjectClass.get
      rw [if_pos (Or.inr henr)]
  | initial c tgt =>
    exact ⟨rfl, rfl, rfl⟩

/-- C3 counterexample: with `_enabled` falsy in the assignments, a readable
text field still declares its attribute in `get_fetch`, and its `create`
still validates the assigned value and writes it into the addlist and the
fetch record, contradicting the claim that every lifecycle phase of a
disabled field is a no-op. -/
theorem claimC3_counterexample :
    ViewField.create
      (ViewField.text
        { key := "t", field := "mail", required := false, creatable := true,
          readable := true, writable := true, fmtMatch := (fun _ => true),
          enumValues := none })
      ⟨"uid=a,dc=x", []⟩ [] [("t", PyVal.s "x"), ("_enabled", PyVal.b false)]
      = Except.ok (⟨"uid=a,dc=x", [("mail", [PyVal.s "x"])]⟩,
          [("mail", [PyVal.s "x"])],
          [("t", PyVal.s "x"), ("_enabled", PyVal.b false)]) ∧
    ViewField.get_fetch
      (ViewField.text
        { key := "t", field := "mail", required := false, creatable := true,
          readable := true, writable := true, fmtMatch := (fun _ => true),
          enumValues := none }) [] = ["mail"] := by
  exact ⟨rfl, rfl⟩

/- ------------------------------------------------------------------ -/
/- Claim C4: idempotence of isMemberOf set_post.                       -/
/- ------------------------------------------------------------------ -/

/-- The foreign writes a set_post run issues (none when it raises). -/
def setPostWrites (c : IsMemberOfCfg) (f : LdapFetch) (a : Assignments)
    (is_new : Bool) : List ForeignWrite :=
  match ViewFieldIsMemberOf.set_post c f a is_new with
  | Except.ok (_, _, ws) => ws
  | Except.error _ => []

/-- Characterisation of a successful set_post run on a boolean assignment
with no duplicated membership value: the assignments are unchanged, the
rolled-forward fetch record holds the membership attribute and reflects the
desired boolean, at most one foreign write is issued, and a write is issued
only when the desired boolean differs from the fetched membership state. -/
theorem isMemberOf_set_post_run (c : IsMemberOfCfg) (f : LdapFetch)
    (a : Assignments) (b : Bool) (n : Bool) (f' : LdapFetch) (a' : Assignments)
    (ws : List ForeignWrite)
    (hk : dget a c.key = some (PyVal.b b))
    (hcount : (dgetD f.values c.field []).count (PyVal.s c.memberOfDn) ≤ 1)
    (hrun : ViewFieldIsMemberOf.set_post c f a n = Except.ok (f', a', ws)) :
    a' = a ∧ dcontains f'.values c.field = true ∧
    decide (PyVal.s c.memberOfDn ∈ dgetD f'.values c.field []) = b ∧
    ws.length ≤ 1 ∧
    (ws ≠ [] → decide (PyVal.s c.memberOfDn ∈ dgetD f.values c.field []) ≠ b) := by
  unfold ViewFieldIsMemberOf.set_post at hrun
  simp only [hk] at hrun
  by_cases hgate : (¬ (n = true ∧ c.creatable = true)) ∧ c.writable = false
  · rw [if_pos hgate] at hrun
    simp at hrun
  · rw [if_neg hgate] at hrun
    by_cases hc : dcontains f.values c.field = true
    · rw [if_pos hc] at hrun
      by_cases hmem : PyVal.b (decide (PyVal.s c.memberOfDn ∈ dgetD f.values c.field []))
          = PyVal.b b
      · rw [if_pos hmem] at hrun
        simp only [Except.ok.injEq, Prod.mk.injEq] at hrun
        obtain ⟨hf, ha', hws⟩ := hrun
        subst ha'
        subst hws
        have hmem2 : decide (PyVal.s c.memberOfDn ∈ dgetD f.values c.field []) = b :=
          PyVal.b.inj hmem
        refine ⟨rfl, ?_, ?_, by simp, by simp⟩
        · rw [← hf]
          exact hc
        · rw [← hf]
          exact hmem2
      · rw [if_neg hmem] at hrun
        cases b with
        | true =>
          rw [if_pos (show truthy (PyVal.b true) = true from rfl)] at hrun
          simp only [Except.ok.injEq, Prod.mk.injEq] at hrun
          obtain ⟨hf, ha', hws⟩ := hrun
          subst ha'
          subst hws
          refine ⟨rfl, ?_, ?_, by simp, ?_⟩
          · rw [← hf]
            simp [dcontains, dget_dset]
          · rw [← hf]
            simp [dgetD, dget_dset]
          · intro _
            intro hdec
            exact hmem (by rw [hdec])
        | false =>
          rw [if_neg (show ¬ (truthy (PyVal.b false) = true) from by decide)] at hrun
          cases hrem : listRemove (dgetD f.values c.field []) (PyVal.s c.memberOfDn) with
          | none =>
            simp only [hrem] at hrun
            simp at hrun
          | some cur' =>
            simp only [hrem] at hrun
            simp only [Except.ok.injEq, Prod.mk.injEq] at hrun
            obtain ⟨hf, ha', hws⟩ := hrun
            subst ha'
            subst hws
            have hnot : PyVal.s c.memberOfDn ∉ cur' :=
              listRemove_not_mem _ _ _ hrem hcount
            refine ⟨rfl, ?_, ?_, by simp, ?_⟩
            · rw [← hf]
              simp [dcontains, dget_dset]
            · rw [← hf]
              simp [dgetD, dget_dset, hnot]
            · intro _
              intro hdec
              exact hmem (by rw [hdec])
    · rw [if_neg hc] at hrun
      have hnil : dgetD f.values c.field [] = [] := by
        unfold dcontains at hc
        cases hd : dget f.values c.field with
        | none => simp [dgetD, hd]
        | some val => rw [hd] at hc; simp at hc
      have hnil2 : dgetD (dset f.values c.field []) c.field [] = ([] : List PyVal) := by
        simp [dgetD, dget_dset]
      rw [hnil2] at hrun
      by_cases hmem : PyVal.b (decide (PyVal.s c.memberOfDn ∈ ([] : List PyVal)))
          = PyVal.b b
      · rw [if_pos hmem] at hrun
        simp only [Except.ok.injEq, Prod.mk.injEq] at hrun
        obtain ⟨hf, ha', hws⟩ := hrun
        subst ha'
        subst hws
        have hb : b = false := by
          have := PyVal.b.inj hmem
          simp at this
          exact this
        subst hb
        refine ⟨rfl, ?_, ?_, by simp, by simp⟩
        · rw [← hf]
          simp [dcontains, dget_dset]
        · rw [← hf]
          simp [dgetD, dget_dset]
      · rw [if_neg hmem] at hrun
        cases b with
        | true =>
          rw [if_pos (show truthy (PyVal.b true) = true from rfl)] at hrun
          simp only [Except.ok.injEq, Prod.mk.injEq] at hrun
          obtain ⟨hf, ha', hws⟩ := hrun
          subst ha'
          subst hws
          refine ⟨rfl, ?_, ?_, by simp, ?_⟩
          · rw [← hf]
            simp [dcontains, dget_dset]
          · rw [← hf]
            simp [dgetD, dget_dset]
          · intro _
            rw [hnil]
            simp
        | false =>
          exfalso
          apply hmem
          simp

/-- Stability: a set_post run over a fetch record that already reflects the
desired boolean either raises on the write gate or returns everything
unchanged with no foreign write. -/
theorem isMemberOf_set_post_stable (c : IsMemberOfCfg) (f : LdapFetch)
    (a : Assignments) (b : Bool) (n : Bool)
    (hk : dget a c.key = some (PyVal.b b))
    (hcont : dcontains f.values c.field = true)
    (hmem : decide (PyVal.s c.memberOfDn ∈ dgetD f.values c.field []) = b) :
    ViewFieldIsMemberOf.set_post c f a n = Except.error Err.badRequest ∨
    ViewFieldIsMemberOf.set_post c f a n = Except.ok (f, a, []) := by
  unfold ViewFieldIsMemberOf.set_post
  simp only [hk]
  by_cases hgate : (¬ (n = true ∧ c.creatable = true)) ∧ c.writable = false
  · rw [if_pos hgate]
    exact Or.inl rfl
  · rw [if_neg hgate]
    rw [if_pos hcont]
    rw [if_pos (show PyVal.b (decide (PyVal.s c.memberOfDn ∈ dgetD f.values c.field []))
          = PyVal.b b from by rw [hmem])]
    exact Or.inr rfl

/-- C4 (amended): for a boolean assignment to an isMemberOf field over a
fetch record whose membership attribute lists the foreign DN at most once
(as a directory with set-valued attributes guarantees), a successful
set_post issues a foreign modify only when the desired boolean differs from
the fetched membership state, and a second run on the rolled-forward state
issues no further write, so the two runs issue at most one foreign write in
total. -/
theorem claimC4_amended (c : IsMemberOfCfg) (f : LdapFetch) (a : Assignments)
    (b : Bool) (n₁ n₂ : Bool) (f' : LdapFetch) (a' : Assignments)
    (ws : List ForeignWrite)
    (hk : dget a c.key = some (PyVal.b b))
    (hcount : (dgetD f.values c.field []).count (PyVal.s c.memberOfDn) ≤ 1)
    (hrun : ViewFieldIsMemberOf.set_post c f a n₁ = Except.ok (f', a', ws)) :
    (ws ≠ [] → decide (PyVal.s c.memberOfDn ∈ dgetD f.values c.field []) ≠ b) ∧
    ws.length + (setPostWrites c f' a' n₂).length ≤ 1 := by
  obtain ⟨ha', hcont', hmem', hlen, honly⟩ :=
    isMemberOf_set_post_run c f a b n₁ f' a' ws hk hcount hrun
  refine ⟨honly, ?_⟩
  rcases isMemberOf_set_post_stable c f' a' b n₂ (by rw [ha']; exact hk) hcont' hmem'
    with h | h
  · unfold setPostWrites
    rw [h]
    simpa using hlen
  · unfold setPostWrites
    rw [h]
    simpa using hlen

/-- C4 counterexample: the spec's data model allows an attribute to carry
repeated values; with the foreign DN listed twice under `memberOf`,
`list.remove` drops only one occurrence, so two set_post runs with the same
desired boolean false each see a flipped state and each issue a foreign
DELETE: two foreign writes in total, against the claimed at most one. -/
theorem claimC4_counterexample :
    ViewFieldIsMemberOf.set_post
      { key := "g", field := "memberOf", required := false, creatable := true,
        readable := true, writable := true, memberOfName := "grp",
        memberOfDn := "cn=grp,dc=x", foreignField := "member" }
      ⟨"uid=a,dc=x", [("memberOf", [PyVal.s "cn=grp,dc=x", PyVal.s "cn=grp,dc=x"])]⟩
      [("g", PyVal.b false)] false
      = Except.ok (⟨"uid=a,dc=x", [("memberOf", [PyVal.s "cn=grp,dc=x"])]⟩,
          [("g", PyVal.b false)],
          [⟨"grp", "member", LdapMod.delete, [PyVal.s "uid=a,dc=x"]⟩]) ∧
    ViewFieldIsMemberOf.set_post
      { key := "g", field := "memberOf", required := false, creatable := true,
        readable := true, writable := true, memberOfName := "grp",
        memberOfDn := "cn=grp,dc=x", foreignField := "member" }
      ⟨"uid=a,dc=x", [("memberOf", [PyVal.s "cn=grp,dc=x"])]⟩
      [("g", PyVal.b false)] false
      = Except.ok (⟨"uid=a,dc=x", [("memberOf", [])]⟩,
          [("g", PyVal.b false)],
          [⟨"grp", "member", LdapMod.delete, [PyVal.s "uid=a,dc=x"]⟩]) := by
  exact ⟨rfl, rfl⟩

/-- Witness for C4 (amended) at a concrete membership flip: removing a
singly-listed membership issues one DELETE write and the second run writes
nothing. -/
theorem claimC4_witness :
    (([⟨"grp", "member", LdapMod.delete, [PyVal.s "uid=a,dc=x"]⟩] :
        List ForeignWrite) ≠ [] →
      decide (PyVal.s "cn=grp,dc=x" ∈
        dgetD [("memberOf", [PyVal.s "cn=grp,dc=x"])] "memberOf" ([] : List PyVal))
        ≠ false) ∧
    ([⟨"grp", "member", LdapMod.delete, [PyVal.s "uid=a,dc=x"]⟩] :
        List ForeignWrite).length +
      (setPostWrites
        { key := "g", field := "memberOf", required := false, creatable := true,
          readable := true, writable := true, memberOfName := "grp",
          memberOfDn := "cn=grp,dc=x", foreignField := "member" }
        ⟨"uid=a,dc=x", [("memberOf", [])]⟩ [("g", PyVal.b false)] false).length ≤ 1 :=
  claimC4_amended
    { key := "g", field := "memberOf", required := false, creatable := true,
      readable := true, writable := true, memberOfName := "grp",
      memberOfDn := "cn=grp,dc=x", foreignField := "member" }
    ⟨"uid=a,dc=x", [("memberOf", [PyVal.s "cn=grp,dc=x"])]⟩
    [("g", PyVal.b false)] false false false
    ⟨"uid=a,dc=x", [("memberOf", [])]⟩ [("g", PyVal.b false)]
    [⟨"grp", "member", LdapMod.delete, [PyVal.s "uid=a,dc=x"]⟩]
    rfl (by decide) rfl

/- ------------------------------------------------------------------ -/
/- Claim C1: equal assignments yield an empty modlist and no modify.   -/
/- ------------------------------------------------------------------ -/

/-- The amended C1 hypothesis for one field of an update request: every
text or datetime field mentioned in the group assignments is assigned a
non-empty string equal to the sole value the fetch record holds for its
attribute (fields of other kinds are outside the claim). -/
def assignMatchesFetch (fetch : LdapFetch) (ga : Assignments) (fld : ViewField) : Bool :=
  match fld with
  | ViewField.text c =>
    match dget ga c.key with
    | none => true
    | some (PyVal.s v) =>
      decide (v ≠ "") && decide (dget fetch.values c.field = some [PyVal.s v])
    | some _ => false
  | ViewField.datetime c =>
    match dget ga c.key with
    | none => true
    | some (PyVal.s v) =>
      decide (v ≠ "") && decide (dget fetch.values c.field = some [PyVal.s v])
    | some _ => false
  | _ => false

/-- A single matching field either raises during validation or leaves the
fetch record, modlist and assignments untouched. -/
theorem fieldSet_skip_of_match (fld : ViewField) (fetch : LdapFetch) (ml : Modlist)
    (ga : Assignments) (h : assignMatchesFetch fetch ga fld = true) :
    ViewField.set fld fetch ml ga = Except.ok (fetch, ml, ga) ∨
    ∃ e, ViewField.set fld fetch ml ga = Except.error e := by
  cases fld with
  | text c =>
    simp only [assignMatchesFetch] at h
    cases hk : dget ga c.key with
    | none =>
      left
      simp only [ViewField.set]
      unfold ViewFieldText.set
      simp only [hk]
    | some av =>
      simp only [hk] at h
      cases av with
      | s v =>
        rw [Bool.and_eq_true] at h
        have hv : v ≠ "" := of_decide_eq_true h.1
        have hf : dget fetch.values c.field = some [PyVal.s v] := of_decide_eq_true h.2
        by_cases hen : isEnabled c.key ga = false
        · left
          simp only [ViewField.set]
          unfold ViewFieldText.set
          simp only [hk]
          rw [if_pos hen]
        · by_cases hw : c.writable = false
          · right
            refine ⟨Err.badRequest, ?_⟩
            simp only [ViewField.set]
            unfold ViewFieldText.set
            simp only [hk]
            rw [if_neg hen, if_pos hw]
          · cases hval : ViewFieldText.validate c (PyVal.s v) with
            | error e =>
              right
              refine ⟨e, ?_⟩
              simp only [ViewField.set]
              unfold ViewFieldText.set
              simp only [hk]
              rw [if_neg hen, if_neg hw]
              simp only [hval]
            | ok u =>
              left
              simp only [ViewField.set]
              unfold ViewFieldText.set
              simp only [hk]
              rw [if_neg hen, if_neg hw]
              simp only [hval]
              rw [if_neg (show ¬ (truthy (PyVal.s v) = false) from by
                simp [truthy, hv])]
              simp only [hf]
              rw [if_pos (show ([PyVal.s v] : List PyVal).length = 1 ∧
                  ([PyVal.s v] : List PyVal).head? = some (PyVal.s v) from by simp)]
              rw [dset_eq_of_dget fetch.values c.field [PyVal.s v] hf]
      | b bv => simp at h
      | dt dv => simp at h
  | datetime c =>
    simp only [assignMatchesFetch] at h
    cases hk : dget ga c.key with
    | none =>
      left
      simp only [ViewField.set]
      unfold ViewFieldDateTime.set
      simp only [hk]
    | some av =>
      simp only [hk] at h
      cases av with
      | s v =>
        rw [Bool.and_eq_true] at h
        have hv : v ≠ "" := of_decide_eq_true h.1
        have hf : dget fetch.values c.field = some [PyVal.s v] := of_decide_eq_true h.2
        by_cases hen : isEnabled c.key ga = false
        · left
          simp only [ViewField.set]
          unfold ViewFieldDateTime.set
          simp only [hk]
          rw [if_pos hen]
        · by_cases hw : c.writable = false
          · right
            refine ⟨Err.badRequest, ?_⟩
            simp only [ViewField.set]
            unfold ViewFieldDateTime.set
            simp only [hk]
            rw [if_neg hen, if_pos hw]
          · cases hval : ViewFieldDateTime.validate c (PyVal.s v) with
            | error e =>
              right
              refine ⟨e, ?_⟩
              simp only [ViewField.set]
              unfold ViewFieldDateTime.set
              simp only [hk]
              rw [if_neg hen, if_neg hw]
              simp only [hval]
            | ok u =>
              left
              simp only [ViewField.set]
              unfold ViewFieldDateTime.set
              simp only [hk]
              rw [if_neg hen, if_neg hw]
              simp only [hval]
              rw [if_neg (show ¬ (truthy (PyVal.s v) = false) from by
                simp [truthy, hv])]
              simp only [hf]
              rw [if_pos (show ([PyVal.s v] : List PyVal).length = 1 ∧
                  ([PyVal.s v] : List PyVal).head? = some (PyVal.s v) from by simp)]
              rw [dset_eq_of_dget fetch.values c.field [PyVal.s v] hf]
      | b bv => simp at h
      | dt dv => simp at h
  | password c => simp [assignMatchesFetch] at h
  | isMemberOf c => simp [assignMatchesFetch] at h
  | objectClass c => simp [assignMatchesFetch] at h
  | initial c tgt => simp [assignMatchesFetch] at h

/-- A fields group of matching fields either raises or changes nothing. -/
theorem groupSet_skip_of_match (fields : List ViewField) (fetch : LdapFetch)
    (ml : Modlist) (ga : Assignments)
    (h : ∀ fld ∈ fields, assignMatchesFetch fetch ga fld = true) :
    ViewGroupFields.set fields fetch ml ga = Except.ok (fetch, ml, ga) ∨
    ∃ e, ViewGroupFields.set fields fetch ml ga = Except.error e := by
  induction fields with
  | nil => exact Or.inl rfl
  | cons fld rest ih =>
    rcases fieldSet_skip_of_match fld fetch ml ga (h fld (List.mem_cons_self _ _))
      with h1 | ⟨e, h1⟩
    · rcases ih (fun g hg => h g (List.mem_cons_of_mem _ hg)) with h2 | ⟨e, h2⟩
      · left
        simp only [ViewGroupFields.set, h1]
        exact h2
      · right
        refine ⟨e, ?_⟩
        simp only [ViewGroupFields.set, h1]
        exact h2
    · right
      refine ⟨e, ?_⟩
      simp only [ViewGroupFields.set, h1]

/-- A projection of matching fields groups either raises or changes
nothing. -/
theorem detailsSet_skip_of_match (groups : List (String × List ViewField))
    (fetch : LdapFetch) (ml : Modlist) (asg : List (String × Assignments))
    (h : ∀ g ∈ groups, ∀ ga, dget asg g.1 = some ga →
          ∀ fld ∈ g.2, assignMatchesFetch fetch ga fld = true) :
    ViewDetails.set groups fetch ml asg = Except.ok (fetch, ml, asg) ∨
    ∃ e, ViewDetails.set groups fetch ml asg = Except.error e := by
  induction groups with
  | nil => exact Or.inl rfl
  | cons g rest ih =>
    obtain ⟨gkey, fields⟩ := g
    cases hga : dget asg gkey with
    | none =>
      rcases ih (fun g' hg' => h g' (List.mem_cons_of_mem _ hg')) with h2 | ⟨e, h2⟩
      · left
        simp only [ViewDetails.set, hga]
        exact h2
      · right
        refine ⟨e, ?_⟩
        simp only [ViewDetails.set, hga]
        exact h2
    | some ga =>
      rcases groupSet_skip_of_match fields fetch ml ga
          (h (gkey, fields) (List.mem_cons_self _ _) ga hga) with h1 | ⟨e, h1⟩
      · have hset : dset asg gkey ga = asg := dset_eq_of_dget asg gkey ga hga
        rcases ih (fun g' hg' => h g' (List.mem_cons_of_mem _ hg')) with h2 | ⟨e, h2⟩
        · left
          simp only [ViewDetails.set, hga, h1, hset]
          exact h2
        · right
          refine ⟨e, ?_⟩
          simp only [ViewDetails.set, hga, h1, hset]
          exact h2
      · right
        refine ⟨e, ?_⟩
        simp only [ViewDetails.set, hga, h1]

/-- C1 (amended): when every text or datetime field mentioned in the
assignment is assigned a non-empty value equal to the sole value the fetch
record currently holds, the `set` phase leaves the modlist empty whenever it
completes, and the update pipeline issues no modify call. -/
theorem claimC1_amended (dn : String) (groups : List (String × List ViewField))
    (fetched : LdapFetch) (asg : List (String × Assignments))
    (h : ∀ g ∈ groups, ∀ ga, dget asg g.1 = some ga →
          ∀ fld ∈ g.2, assignMatchesFetch fetched ga fld = true) :
    View.updateModifies dn groups fetched asg = [] ∧
    (∀ f' ml' asg', ViewDetails.set groups fetched [] asg = Except.ok (f', ml', asg') →
      ml' = []) := by
  rcases detailsSet_skip_of_match groups fetched [] asg h with h1 | ⟨e, h1⟩
  · constructor
    · unfold View.updateModifies
      rw [h1]
      simp
    · intro f' ml' asg' h2
      rw [h1] at h2
      simp only [Except.ok.injEq, Prod.mk.injEq] at h2
      exact h2.2.1.symm
  · constructor
    · unfold View.updateModifies
      rw [h1]
    · intro f' ml' asg' h2
      rw [h1] at h2
      simp at h2

/-- C1 counterexample: the assigned empty string equals the sole value the
fetch record holds, yet `set` emits a DELETE and the pipeline issues a
modify call. The leading conjuncts exhibit that the claim's equality
hypothesis holds at this input. -/
theorem claimC1_counterexample :
    dget [("user", [("m", PyVal.s "")])] "user" = some [("m", PyVal.s "")] ∧
    dget [("m", PyVal.s "")] "m" = some (PyVal.s "") ∧
    dget (LdapFetch.mk "uid=a,dc=x" [("mail", [PyVal.s ""])]).values "mail"
      = some [PyVal.s ""] ∧
    View.updateModifies "uid=a,dc=x"
      [("user", [ViewField.text
        { key := "m", field := "mail", required := false, creatable := true,
          readable := true, writable := true, fmtMatch := (fun _ => true),
          enumValues := none }])]
      ⟨"uid=a,dc=x", [("mail", [PyVal.s ""])]⟩
      [("user", [("m", PyVal.s "")])]
      = [("uid=a,dc=x", [("mail", [(LdapMod.delete, [])])])] := by
  exact ⟨rfl, rfl, rfl, rfl⟩

/-- Witness for C1 (amended): an update assigning the value the record
already holds issues no modify. -/
theorem claimC1_witness :
    View.updateModifies "uid=a,dc=x"
      [("user", [ViewField.text
        { key := "m", field := "mail", required := false, creatable := true,
          readable := true, writable := true, fmtMatch := (fun _ => true),
          enumValues := none }])]
      ⟨"uid=a,dc=x", [("mail", [PyVal.s "alice"])]⟩
      [("user", [("m", PyVal.s "alice")])] = [] :=
  (claimC1_amended "uid=a,dc=x"
    [("user", [ViewField.text
      { key := "m", field := "mail", required := false, creatable := true,
        readable := true, writable := true, fmtMatch := (fun _ => true),
        enumValues := none }])]
    ⟨"uid=a,dc=x", [("mail", [PyVal.s "alice"])]⟩
    [("user", [("m", PyVal.s "alice")])]
    (by
      intro g hg ga hga fld hf
      simp only [List.mem_singleton] at hg
      subst hg
      simp [dget] at hga
      subst hga
      simp only [List.mem_singleton] at hf
      subst hf
      rfl)).1

/-- Witness for C3 (amended) at a concrete disabled record: the text field's
set, set_fetch and get phases leave everything unchanged. -/
theorem claimC3_witness :
    ViewField.set
      (ViewField.text
        { key := "m", field := "mail", required := false, creatable := true,
          readable := true, writable := true, fmtMatch := (fun _ => true),
          enumValues := none })
      ⟨"dn0", []⟩ [] [("m", PyVal.s "x"), ("_enabled", PyVal.b false)]
      = Except.ok (⟨"dn0", []⟩, [],
          [("m", PyVal.s "x"), ("_enabled", PyVal.b false)]) ∧
    ViewField.set_fetch
      (ViewField.text
        { key := "m", field := "mail", required := false, creatable := true,
          readable := true, writable := true, fmtMatch := (fun _ => true),
          enumValues := none })
      [] [("m", PyVal.s "x"), ("_enabled", PyVal.b false)] = Except.ok [] ∧
    ViewField.get
      (ViewField.text
        { key := "m", field := "mail", required := false, creatable := true,
          readable := true, writable := true, fmtMatch := (fun _ => true),
          enumValues := none })
      ⟨"dn0", []⟩ [("_enabled", PyVal.b false)]
      = Except.ok [("_enabled", PyVal.b false)] :=
  claimC3_amended
    (ViewField.text
      { key := "m", field := "mail", required := false, creatable := true,
        readable := true, writable := true, fmtMatch := (fun _ => true),
        enumValues := none })
    ⟨"dn0", []⟩ [] [] [("m", PyVal.s "x"), ("_enabled", PyVal.b false)]
    [("_enabled", PyVal.b false)] (PyVal.b false) (PyVal.b false)
    (by decide) rfl rfl rfl rfl
